import Mathlib

set_option maxRecDepth 100000

/-!
# Verification of the galileo DEX reverse-engineering toolkit

Shallow embedding of the PDA-derivation, Base58, curve-membership and
account-decoding code found under `reverser/` (goonfi, zerofi, obric_v2,
saros, aquifer, tessera_v), together with proofs and refutations of the
specification claims about them.

Byte strings are modelled as `List Nat` with every element `< 256`.
Python's incremental `hashlib.sha256` usage is modelled by hashing the
concatenation of the updates, and Python exceptions become `Except`/`Option`
results.  All definitions are fuel-based structural recursions so that every
concrete instance evaluates inside the kernel.
-/

abbrev Bytes := List Nat

/-- Python `int.from_bytes(l, "big")`. -/
def pyFromBytesBE (l : Bytes) : Nat := l.foldl (fun a b => a * 256 + b) 0

/-- Python `int.from_bytes(l, "little")`. -/
def pyFromBytesLE (l : Bytes) : Nat := l.foldr (fun b a => a * 256 + b) 0

/-- Big-endian fixed-width byte expansion: `toBEAux w n` is the last `w`
base-256 digits of `n`, most significant first (Python `n.to_bytes(w, "big")`
when `n < 256 ^ w`). -/
def toBEAux : Nat → Nat → Bytes
  | 0, _ => []
  | w + 1, n => toBEAux w (n / 256) ++ [n % 256]

/-- Python slice `l[a:b]` (for `0 ≤ a ≤ b`). -/
def pySlice (l : Bytes) (a b : Nat) : Bytes := (l.drop a).take (b - a)

/-- ASCII bytes of a literal such as Python `b"dex"`. -/
def asciiBytes (s : String) : Bytes := s.data.map Char.toNat

/-! ## SHA-256 (FIPS 180-4), executable over `Bytes` -/

def M32 : Nat := 4294967296

def rotr32 (n x : Nat) : Nat := ((x >>> n) ||| (x <<< (32 - n))) % M32

def bsig0 (x : Nat) : Nat := rotr32 2 x ^^^ rotr32 13 x ^^^ rotr32 22 x
def bsig1 (x : Nat) : Nat := rotr32 6 x ^^^ rotr32 11 x ^^^ rotr32 25 x
def ssig0 (x : Nat) : Nat := rotr32 7 x ^^^ rotr32 18 x ^^^ (x >>> 3)
def ssig1 (x : Nat) : Nat := rotr32 17 x ^^^ rotr32 19 x ^^^ (x >>> 10)

def sha256K : List Nat :=
  [1116352408, 1899447441, 3049323471, 3921009573, 961987163,
   1508970993, 2453635748, 2870763221, 3624381080, 310598401,
   607225278, 1426881987, 1925078388, 2162078206, 2614888103,
   3248222580, 3835390401, 4022224774, 264347078, 604807628,
   770255983, 1249150122, 1555081692, 1996064986, 2554220882,
   2821834349, 2952996808, 3210313671, 3336571891, 3584528711,
   113926993, 338241895, 666307205, 773529912, 1294757372,
   1396182291, 1695183700, 1986661051, 2177026350, 2456956037,
   2730485921, 2820302411, 3259730800, 3345764771, 3516065817,
   3600352804, 4094571909, 275423344, 430227734, 506948616,
   659060556, 883997877, 958139571, 1322822218, 1537002063,
   1747873779, 1955562222, 2024104815, 2227730452, 2361852424,
   2428436474, 2756734187, 3204031479, 3329325298]

def sha256H0 : List Nat :=
  [1779033703, 3144134277, 1013904242, 2773480762,
   1359893119, 2600822924, 528734635, 1541459225]

/-- Append the `0x80` byte, the zero padding, and the 64-bit big-endian
bit length. -/
def sha256Pad (msg : Bytes) : Bytes :=
  let L := msg.length
  msg ++ [128] ++ List.replicate ((64 - ((L + 9) % 64)) % 64) 0 ++
    toBEAux 8 (8 * L)

/-- Group bytes into big-endian 32-bit words. -/
def bytesToWordsBE : Bytes → List Nat
  | b3 :: b2 :: b1 :: b0 :: rest =>
      (((b3 * 256 + b2) * 256 + b1) * 256 + b0) :: bytesToWordsBE rest
  | _ => []

/-- Extend a 16-word block to the 64-word message schedule. -/
def sha256SchedAux : Nat → List Nat → List Nat
  | 0, w => w
  | f + 1, w =>
      let n := w.length
      sha256SchedAux f (w ++
        [(ssig1 (w.getD (n - 2) 0) + w.getD (n - 7) 0 +
          ssig0 (w.getD (n - 15) 0) + w.getD (n - 16) 0) % M32])

def sha256Sched (block : List Nat) : List Nat := sha256SchedAux 48 block

/-- One SHA-256 round on the 8-word state. -/
def sha256Round (st : List Nat) (kw : Nat × Nat) : List Nat :=
  match st with
  | [a, b, c, d, e, f, g, h] =>
      let ch := (e &&& f) ^^^ ((e ^^^ 0xffffffff) &&& g)
      let maj := (a &&& b) ^^^ (a &&& c) ^^^ (b &&& c)
      let t1 := (h + bsig1 e + ch + kw.1 + kw.2) % M32
      let t2 := (bsig0 a + maj) % M32
      [(t1 + t2) % M32, a, b, c, (d + t1) % M32, e, f, g]
  | other => other

def sha256Compress (h : List Nat) (block : List Nat) : List Nat :=
  let st := (sha256K.zip (sha256Sched block)).foldl sha256Round h
  (h.zip st).map fun p => (p.1 + p.2) % M32

/-- Process the word stream block by block; the fuel bounds the number of
blocks and is instantiated with the total word count. -/
def sha256Outer : Nat → List Nat → List Nat → List Nat
  | _, h, [] => h
  | 0, h, _ => h
  | f + 1, h, ws => sha256Outer f (sha256Compress h (ws.take 16)) (ws.drop 16)

/-- SHA-256 digest (32 bytes) of a byte string. -/
def sha256Bytes (msg : Bytes) : Bytes :=
  let ws := bytesToWordsBE (sha256Pad msg)
  (sha256Outer ws.length sha256H0 ws).foldr (fun w acc => toBEAux 4 w ++ acc) []

example : sha256Bytes (asciiBytes "abc") =
    [186, 120, 22, 191, 143, 1, 207, 234, 65, 65, 64, 222, 93, 174, 34, 35,
     176, 3, 97, 163, 150, 23, 122, 156, 180, 16, 255, 97, 242, 0, 21, 173] := by
  decide

example : sha256Bytes [] =
    [227, 176, 196, 66, 152, 252, 28, 20, 154, 251, 244, 200, 153, 111, 185,
     36, 39, 174, 65, 228, 100, 155, 147, 76, 164, 149, 153, 27, 120, 82,
     184, 85] := by
  decide

/-! ## Modular exponentiation (Python three-argument `pow`) -/

/-- Fuel-based binary exponentiation, tail-recursive;
`powModAux f b e acc m = acc * b ^ e % m` provided `e < 2 ^ f` and `acc < m`. -/
def powModAux : Nat → Nat → Nat → Nat → Nat → Nat
  | 0, _, _, acc, _ => acc
  | f + 1, b, e, acc, m =>
      if e = 0 then acc
      else
        powModAux f (b * b % m) (e / 2)
          (if e % 2 = 1 then acc * b % m else acc) m

/-- Python `pow(b, e, m)` for the exponent sizes used here (`e < 2 ^ 260`). -/
def powMod (b e m : Nat) : Nat := powModAux 260 (b % m) e (1 % m) m

example : powMod 2 10 1000 = 24 := by decide
example : powMod 3 0 7 = 1 := by decide

/-! ## Ed25519 curve-membership tests

Four slightly different copies exist in the repository.  The field constant
`d` is written in the source as `(-121665 * pow(121666, -1, p)) % p`; Python's
`pow(a, -1, p)` is the modular inverse, realised here via Fermat's little
theorem as `pow(a, p - 2, p)`. -/

def ED25519_P : Nat := 2 ^ 255 - 19

def ED25519_D : Nat :=
  (ED25519_P - 121665) * powMod 121666 (ED25519_P - 2) ED25519_P % ED25519_P

example : ED25519_D =
    37095705934669439343138083508754565189542113879843219016388785533085940283555 := by
  decide

/-- The 255-bit `y` coordinate: `int.from_bytes(pubkey, "little") & ((1 << 255) - 1)`. -/
def curveY (pubkey : Bytes) : Nat := pyFromBytesLE pubkey &&& (2 ^ 255 - 1)

/-- The sign bit: `pubkey[31] >> 7`. -/
def curveSign (pubkey : Bytes) : Nat := pubkey.getD 31 0 >>> 7

/-- `is_on_curve` as in `reverser/goonfi/goonfi_utils.py` (same code appears in
`tessera_v_decode.py` and `aquifer_decode.py`): ends with
`not (x == 0 and sign == 1)`. -/
def goonfiIsOnCurve (pubkey : Bytes) : Bool :=
  if pubkey.length ≠ 32 then false
  else
    let P : Int := (ED25519_P : Nat)
    let y : Int := (curveY pubkey : Nat)
    let sign := curveSign pubkey
    if P ≤ y then false
    else
      let y2 := y * y % P
      let u := (y2 - 1) % P
      let v := ((ED25519_D : Nat) * y2 + 1) % P
      if v = 0 then false
      else
        let x2 := u * (powMod v.toNat (ED25519_P - 2) ED25519_P : Nat) % P
        let x : Int := (powMod x2.toNat ((ED25519_P + 3) / 8) ED25519_P : Nat)
        if (x * x - x2) % P ≠ 0 then
          let x := x * (powMod 2 ((ED25519_P - 1) / 4) ED25519_P : Nat) % P
          if (x * x - x2) % P ≠ 0 then false
          else
            let x := if x % 2 ≠ (sign : Int) then (-x) % P else x
            !(x == 0 && sign == 1)
        else
          let x := if x % 2 ≠ (sign : Int) then (-x) % P else x
          !(x == 0 && sign == 1)

/-- `is_on_curve` as in `reverser/zerofi/zerofi_decode.py` (same code in
`saros_decode.py`): identical to the goonfi copy except that it ends with
`return x != 0`. -/
def zerofiIsOnCurve (pubkey : Bytes) : Bool :=
  if pubkey.length ≠ 32 then false
  else
    let P : Int := (ED25519_P : Nat)
    let y : Int := (curveY pubkey : Nat)
    let sign := curveSign pubkey
    if P ≤ y then false
    else
      let y2 := y * y % P
      let u := (y2 - 1) % P
      let v := ((ED25519_D : Nat) * y2 + 1) % P
      if v = 0 then false
      else
        let x2 := u * (powMod v.toNat (ED25519_P - 2) ED25519_P : Nat) % P
        let x : Int := (powMod x2.toNat ((ED25519_P + 3) / 8) ED25519_P : Nat)
        if (x * x - x2) % P ≠ 0 then
          let x := x * (powMod 2 ((ED25519_P - 1) / 4) ED25519_P : Nat) % P
          if (x * x - x2) % P ≠ 0 then false
          else
            let x := if x % 2 ≠ (sign : Int) then (-x) % P else x
            x != 0
        else
          let x := if x % 2 ≠ (sign : Int) then (-x) % P else x
          x != 0

/-- `_recover_x` as in `reverser/obric_v2/obric_v2_decode.py` (no `v == 0`
guard, no `y >= p` guard). -/
def obricRecoverX (y : Int) (sign : Nat) : Int :=
  let P : Int := (ED25519_P : Nat)
  let y2 := y * y % P
  let u := (y2 - 1) % P
  let v := ((ED25519_D : Nat) * y2 + 1) % P
  let x2 := u * (powMod v.toNat (ED25519_P - 2) ED25519_P : Nat) % P
  let x : Int := (powMod x2.toNat ((ED25519_P + 3) / 8) ED25519_P : Nat)
  let x :=
    if (x * x - x2) % P ≠ 0 then
      x * (powMod 2 ((ED25519_P - 1) / 4) ED25519_P : Nat) % P
    else x
  if x % 2 ≠ (sign : Int) then (-x) % P else x

/-- `is_on_curve` as in `reverser/obric_v2/obric_v2_decode.py`: recovers `x`
and then tests `(p - ((x*x + y*y - 1) % p)) % p == (d*x*x*y*y) % p`.  It never
compares `y` against `p`. -/
def obricIsOnCurve (point : Bytes) : Bool :=
  if point.length ≠ 32 then false
  else
    let P : Int := (ED25519_P : Nat)
    let y : Int := (curveY point : Nat)
    let sign := curveSign point
    let x := obricRecoverX y sign
    (P - (x * x + y * y - 1) % P) % P == ((ED25519_D : Nat) : Int) * x * x * y * y % P

example :
    goonfiIsOnCurve (88 :: List.replicate 31 102) = true := by decide

example :
    goonfiIsOnCurve
      [176, 201, 248, 101, 246, 103, 172, 131, 205, 155, 170, 233, 23, 45,
       122, 162, 37, 191, 135, 70, 151, 239, 138, 79, 91, 239, 72, 25, 23,
       115, 246, 254] = false := by decide

example :
    obricIsOnCurve (238 :: List.replicate 30 255 ++ [127]) = true := by decide

/-! ## Base58 codec copies -/

def B58_ALPHABET : List Char :=
  ['1', '2', '3', '4', '5', '6', '7', '8', '9',
   'A', 'B', 'C', 'D', 'E', 'F', 'G', 'H', 'J', 'K', 'L', 'M', 'N',
   'P', 'Q', 'R', 'S', 'T', 'U', 'V', 'W', 'X', 'Y', 'Z',
   'a', 'b', 'c', 'd', 'e', 'f', 'g', 'h', 'i', 'j', 'k', 'm', 'n',
   'o', 'p', 'q', 'r', 's', 't', 'u', 'v', 'w', 'x', 'y', 'z']

/-- Base-58 digits of `n`, most significant first (the source's
`while num > 0: num, rem = divmod(num, 58); encoded = ALPHABET[rem] + encoded`
loop).  The fuel argument is instantiated with `n` itself, which bounds the
digit count. -/
def b58digitsAux : Nat → Nat → List Nat
  | 0, _ => []
  | f + 1, n => if n = 0 then [] else b58digitsAux f (n / 58) ++ [n % 58]

def natToB58Chars (n : Nat) : List Char :=
  (b58digitsAux n n).map fun d => B58_ALPHABET.getD d '?'

def leadingZeroBytes (l : Bytes) : Nat := (l.takeWhile (· == 0)).length

/-- `b58encode` as in `goonfi_utils.py` (the same text appears in
`zerofi_decode.py`, `saros_decode.py` and `aquifer_decode.py`):
`num == 0` maps to `"1" * len(data)`. -/
def goonfiB58encode (data : Bytes) : String :=
  let num := pyFromBytesBE data
  if num = 0 then String.mk (List.replicate data.length '1')
  else String.mk (List.replicate (leadingZeroBytes data) '1' ++ natToB58Chars num)

/-- `b58encode` as in `tessera_v_decode.py`: identical except that
`num == 0` maps to the single character `"1"`, ignoring the input length. -/
def tesseraB58encode (data : Bytes) : String :=
  let num := pyFromBytesBE data
  if num = 0 then "1"
  else String.mk (List.replicate (leadingZeroBytes data) '1' ++ natToB58Chars num)

/-- Index of a character in the Base58 alphabet; `none` models the
`ValueError`/`KeyError` a non-alphabet character raises. -/
def b58CharIndex (c : Char) : Option Nat := B58_ALPHABET.findIdx? (· == c)

/-- The `num = num * 58 + index(char)` accumulation loop of every decoder. -/
def b58NumAux : List Char → Nat → Option Nat
  | [], acc => some acc
  | c :: rest, acc =>
      match b58CharIndex c with
      | none => none
      | some i => b58NumAux rest (acc * 58 + i)

def leadingOnes (l : List Char) : Nat := (l.takeWhile (· == '1')).length

/-- Python `num.to_bytes(32, "big")`: `none` models the `OverflowError`. -/
def pyToBytesBEOpt (w n : Nat) : Option Bytes :=
  if n < 256 ^ w then some (toBEAux w n) else none

/-- `b58decode` as in `goonfi_utils.py` (same text in `tessera_v_decode.py`
and `obric_v2_decode.py`): converts to exactly 32 bytes and then PREPENDS one
zero byte per leading `'1'` of the input, so the result has `32 + pad` bytes. -/
def goonfiB58decode (s : String) : Option Bytes :=
  match b58NumAux s.data 0 with
  | none => none
  | some num =>
      match pyToBytesBEOpt 32 num with
      | none => none
      | some raw =>
          some (List.replicate (leadingOnes s.data) 0 ++ raw.drop (raw.length - 32))

/-- Number of base-256 digits of `n` — Python's `(num.bit_length() + 7) // 8`
for positive `num`, and `0` for `num = 0`; fuel-based (`n` bounds the digit
count). -/
def byteLenAux : Nat → Nat → Nat
  | 0, _ => 0
  | f + 1, n => if n = 0 then 0 else byteLenAux f (n / 256) + 1

def pyByteLen (n : Nat) : Nat := byteLenAux n n

/-- Python `num.to_bytes((num.bit_length() + 7) // 8, "big") if num else b""`. -/
def pyMinBytesBE (n : Nat) : Bytes := if n = 0 then [] else toBEAux (pyByteLen n) n

/-- Python `l.rjust(w, b"\x00")`. -/
def pyRJustZero (l : Bytes) (w : Nat) : Bytes := List.replicate (w - l.length) 0 ++ l

/-- `b58decode` as in `zerofi_decode.py`: minimal big-endian bytes, re-padded
by the leading-`'1'` count, then right-justified to 32 bytes. -/
def zerofiB58decode (s : String) : Option Bytes :=
  match b58NumAux s.data 0 with
  | none => none
  | some num =>
      let pad := leadingOnes s.data
      some (pyRJustZero (List.replicate pad 0 ++ pyMinBytesBE num) 32)

/-- `b58decode` as in `saros_decode.py` (same algorithm as the zerofi copy). -/
def sarosB58decode (s : String) : Option Bytes :=
  match b58NumAux s.data 0 with
  | none => none
  | some num =>
      let pad := leadingOnes s.data
      some (pyRJustZero (List.replicate pad 0 ++ pyMinBytesBE num) 32)

/-- `b58decode` as in `aquifer_decode.py`: `b"\x00" * pad + raw.rjust(32, b"\x00")`
(the `rjust` is applied before the pad bytes are prepended). -/
def aquiferB58decode (s : String) : Option Bytes :=
  match b58NumAux s.data 0 with
  | none => none
  | some num =>
      let pad := leadingOnes s.data
      some (List.replicate pad 0 ++ pyRJustZero (pyMinBytesBE num) 32)

example : goonfiB58encode (List.replicate 32 0) =
    String.mk (List.replicate 32 '1') := by decide
example : tesseraB58encode (List.replicate 32 0) = "1" := by decide
example :
    zerofiB58decode (goonfiB58encode (List.replicate 31 0 ++ [5])) =
      some (List.replicate 31 0 ++ [5]) := by decide
example :
    goonfiB58decode (goonfiB58encode (List.replicate 31 0 ++ [5])) =
      some (List.replicate 31 0 ++ (List.replicate 31 0 ++ [5])) := by decide

/-! ## PDA derivation copies -/

deriving instance DecidableEq for Except

/-- Errors of `create_program_address` (`ValueError` in the source). -/
inductive PdaErr
  | seedTooLong
  | tooManySeeds
  | onCurve
  deriving DecidableEq

def pdaMarker : Bytes := asciiBytes "ProgramDerivedAddress"

/-- The per-seed `len(seed) > 32` check plus concatenation shared by every
copy of `create_program_address`. -/
def seedsConcatChecked : List Bytes → Except PdaErr Bytes
  | [] => .ok []
  | s :: rest =>
      if 32 < s.length then .error .seedTooLong
      else
        match seedsConcatChecked rest with
        | .ok b => .ok (s ++ b)
        | .error e => .error e

/-- The digest hashed by the goonfi copy of `create_program_address`
(`goonfi_utils.py`): seeds, then program id, then the marker, fed to one
SHA-256 (incremental `hasher.update` calls hash the concatenation). -/
def goonfiPdaDigest (seeds : List Bytes) (programId : Bytes) : Except PdaErr Bytes :=
  (seedsConcatChecked seeds).map fun buf => sha256Bytes (buf ++ programId ++ pdaMarker)

def goonfiCreateProgramAddress (seeds : List Bytes) (programId : Bytes) :
    Except PdaErr Bytes :=
  match goonfiPdaDigest seeds programId with
  | .error e => .error e
  | .ok digest =>
      if goonfiIsOnCurve digest then .error .onCurve else .ok digest

/-- The digest hashed by the zerofi copy (`zerofi_decode.py`): the buffer
STARTS with `b"ProgramDerivedAddress"`, then the seeds, then the program id;
this copy also rejects more than 16 seeds. -/
def zerofiPdaDigest (seeds : List Bytes) (programId : Bytes) : Except PdaErr Bytes :=
  if 16 < seeds.length then .error .tooManySeeds
  else
    (seedsConcatChecked seeds).map fun buf =>
      sha256Bytes (pdaMarker ++ buf ++ programId)

def zerofiCreateProgramAddress (seeds : List Bytes) (programId : Bytes) :
    Except PdaErr Bytes :=
  match zerofiPdaDigest seeds programId with
  | .error e => .error e
  | .ok digest =>
      if zerofiIsOnCurve digest then .error .onCurve else .ok digest

/-- The digest hashed by the obric_v2 copy (`obric_v2_decode.py`): the
accumulator `acc` starts as `b"ProgramDerivedAddress"`, seeds are appended,
then the program id (`base64.b16decode(hashlib.sha256(acc).hexdigest())` is
the plain digest). -/
def obricPdaDigest (seeds : List Bytes) (programId : Bytes) : Except PdaErr Bytes :=
  (seedsConcatChecked seeds).map fun buf =>
    sha256Bytes (pdaMarker ++ buf ++ programId)

def obricCreateProgramAddress (seeds : List Bytes) (programId : Bytes) :
    Except PdaErr Bytes :=
  match obricPdaDigest seeds programId with
  | .error e => .error e
  | .ok digest =>
      if obricIsOnCurve digest then .error .onCurve else .ok digest

/-- `b58encode` copy local to `zerofi_decode.py` (same text as goonfi's). -/
def zerofiB58encode (data : Bytes) : String :=
  let num := pyFromBytesBE data
  if num = 0 then String.mk (List.replicate data.length '1')
  else String.mk (List.replicate (leadingZeroBytes data) '1' ++ natToB58Chars num)

/-- `b58encode` copy local to `saros_decode.py` (same text as goonfi's). -/
def sarosB58encode (data : Bytes) : String :=
  let num := pyFromBytesBE data
  if num = 0 then String.mk (List.replicate data.length '1')
  else String.mk (List.replicate (leadingZeroBytes data) '1' ++ natToB58Chars num)

/-- `b58encode` copy local to `aquifer_decode.py` (same text as goonfi's). -/
def aquiferB58encode (data : Bytes) : String :=
  let num := pyFromBytesBE data
  if num = 0 then String.mk (List.replicate data.length '1')
  else String.mk (List.replicate (leadingZeroBytes data) '1' ++ natToB58Chars num)

/-- goonfi `find_program_address`: bump countdown from `start`; the
`except ValueError: continue` swallows every `create_program_address`
failure, and exhaustion (`RuntimeError`) is `none`. -/
def goonfiFpaAux (seeds : List Bytes) (programId : Bytes) : Nat → Option (String × Nat)
  | 0 =>
      match goonfiCreateProgramAddress (seeds ++ [[0]]) programId with
      | .ok d => some (goonfiB58encode d, 0)
      | .error _ => none
  | b + 1 =>
      match goonfiCreateProgramAddress (seeds ++ [[b + 1]]) programId with
      | .ok d => some (goonfiB58encode d, b + 1)
      | .error _ => goonfiFpaAux seeds programId b

def goonfiFindProgramAddress (seeds : List Bytes) (programId : Bytes) :
    Option (String × Nat) :=
  goonfiFpaAux seeds programId 255

/-! ### aquifer copies (`aquifer_decode.py`): marker-last digest, byte-level
`find_program_address_bytes` used by the integrity checks -/

def aquiferIsOnCurve (pubkey : Bytes) : Bool :=
  if pubkey.length ≠ 32 then false
  else
    let P : Int := (ED25519_P : Nat)
    let y : Int := (curveY pubkey : Nat)
    let sign := curveSign pubkey
    if P ≤ y then false
    else
      let y2 := y * y % P
      let u := (y2 - 1) % P
      let v := ((ED25519_D : Nat) * y2 + 1) % P
      if v = 0 then false
      else
        let x2 := u * (powMod v.toNat (ED25519_P - 2) ED25519_P : Nat) % P
        let x : Int := (powMod x2.toNat ((ED25519_P + 3) / 8) ED25519_P : Nat)
        if (x * x - x2) % P ≠ 0 then
          let x := x * (powMod 2 ((ED25519_P - 1) / 4) ED25519_P : Nat) % P
          if (x * x - x2) % P ≠ 0 then false
          else
            let x := if x % 2 ≠ (sign : Int) then (-x) % P else x
            !(x == 0 && sign == 1)
        else
          let x := if x % 2 ≠ (sign : Int) then (-x) % P else x
          !(x == 0 && sign == 1)

def aquiferPdaDigest (seeds : List Bytes) (programId : Bytes) : Except PdaErr Bytes :=
  (seedsConcatChecked seeds).map fun buf => sha256Bytes (buf ++ programId ++ pdaMarker)

def aquiferCreateProgramAddress (seeds : List Bytes) (programId : Bytes) :
    Except PdaErr Bytes :=
  match aquiferPdaDigest seeds programId with
  | .error e => .error e
  | .ok digest =>
      if aquiferIsOnCurve digest then .error .onCurve else .ok digest

def aquiferFpaBytesAux (seeds : List Bytes) (programId : Bytes) :
    Nat → Option (Bytes × Nat)
  | 0 =>
      match aquiferCreateProgramAddress (seeds ++ [[0]]) programId with
      | .ok d => some (d, 0)
      | .error _ => none
  | b + 1 =>
      match aquiferCreateProgramAddress (seeds ++ [[b + 1]]) programId with
      | .ok d => some (d, b + 1)
      | .error _ => aquiferFpaBytesAux seeds programId b

def aquiferFindProgramAddressBytes (seeds : List Bytes) (programId : Bytes) :
    Option (Bytes × Nat) :=
  aquiferFpaBytesAux seeds programId 255

/-! ### saros copies (`saros_decode.py`): marker-last digest, `x != 0`
curve finish -/

def sarosIsOnCurve (pubkey : Bytes) : Bool :=
  if pubkey.length ≠ 32 then false
  else
    let P : Int := (ED25519_P : Nat)
    let y : Int := (curveY pubkey : Nat)
    let sign := curveSign pubkey
    if P ≤ y then false
    else
      let y2 := y * y % P
      let u := (y2 - 1) % P
      let v := ((ED25519_D : Nat) * y2 + 1) % P
      if v = 0 then false
      else
        let x2 := u * (powMod v.toNat (ED25519_P - 2) ED25519_P : Nat) % P
        let x : Int := (powMod x2.toNat ((ED25519_P + 3) / 8) ED25519_P : Nat)
        if (x * x - x2) % P ≠ 0 then
          let x := x * (powMod 2 ((ED25519_P - 1) / 4) ED25519_P : Nat) % P
          if (x * x - x2) % P ≠ 0 then false
          else
            let x := if x % 2 ≠ (sign : Int) then (-x) % P else x
            x != 0
        else
          let x := if x % 2 ≠ (sign : Int) then (-x) % P else x
          x != 0

def sarosPdaDigest (seeds : List Bytes) (programId : Bytes) : Except PdaErr Bytes :=
  (seedsConcatChecked seeds).map fun buf => sha256Bytes (buf ++ programId ++ pdaMarker)

def sarosCreateProgramAddress (seeds : List Bytes) (programId : Bytes) :
    Except PdaErr Bytes :=
  match sarosPdaDigest seeds programId with
  | .error e => .error e
  | .ok digest =>
      if sarosIsOnCurve digest then .error .onCurve else .ok digest

def sarosFpaAux (seeds : List Bytes) (programId : Bytes) : Nat → Option (String × Nat)
  | 0 =>
      match sarosCreateProgramAddress (seeds ++ [[0]]) programId with
      | .ok d => some (sarosB58encode d, 0)
      | .error _ => none
  | b + 1 =>
      match sarosCreateProgramAddress (seeds ++ [[b + 1]]) programId with
      | .ok d => some (sarosB58encode d, b + 1)
      | .error _ => sarosFpaAux seeds programId b

def sarosFindProgramAddress (seeds : List Bytes) (programId : Bytes) :
    Option (String × Nat) :=
  sarosFpaAux seeds programId 255

/-! ## Layout field readers -/

/-- Error raised by the checked `read_pubkey` of `zerofi_decode.py` /
`aquifer_decode.py`; the payload is the offending offset, which the
`ValueError` message names. -/
inductive ReadErr
  | truncated (offset : Nat)
  deriving DecidableEq

/-- `read_pubkey` as in `zerofi_decode.py`: slices 32 bytes, raises
(`ValueError` naming the offset) when the chunk is short, else Base58-encodes. -/
def zerofiReadPubkey (data : Bytes) (offset : Nat) : Except ReadErr String :=
  let chunk := pySlice data offset (offset + 32)
  if chunk.length ≠ 32 then .error (.truncated offset)
  else .ok (zerofiB58encode chunk)

/-- `read_pubkey` as in `saros_decode.py`: no bounds check at all — a slice
past the end is silently shorter and is encoded as-is. -/
def sarosReadPubkey (raw : Bytes) (offset : Nat) : String :=
  sarosB58encode (pySlice raw offset (offset + 32))

/-- `read_u64` as in `saros_decode.py`: `int.from_bytes` of a (possibly
silently short) 8-byte slice. -/
def sarosReadU64 (raw : Bytes) (offset : Nat) : Nat :=
  pyFromBytesLE (pySlice raw offset (offset + 8))

/-- `read_pubkey` as in `aquifer_decode.py`: returns the raw 32-byte segment,
raising when it is short. -/
def aquiferReadPubkey (data : Bytes) (offset : Nat) : Except ReadErr Bytes :=
  let segment := pySlice data offset (offset + 32)
  if segment.length ≠ 32 then .error (.truncated offset)
  else .ok segment

example : sarosReadU64 [] 0 = 0 := by decide
example : sarosReadPubkey [] 0 = "" := by decide
example : zerofiReadPubkey [0] 0 = .error (.truncated 0) := by decide

/-! ## aquifer account decoding (`aquifer_decode.py`) -/

def aquiferProgramIdStr : String := "AQU1FRd7papthgdrwPTTq5JacJh8YtwEXaBfKU3bTz45"

/-- `PROGRAM_ID_BYTES`, initialised in `main` as `b58decode(PROGRAM_ID)`. -/
def aquiferPidBytes : Bytes := (aquiferB58decode aquiferProgramIdStr).getD []

example : (aquiferB58decode aquiferProgramIdStr).isSome = true := by decide
example : aquiferPidBytes.length = 32 := by decide

/-- Errors of the aquifer decoders (`ValueError` / `RuntimeError` in the
source, distinguished by their message). -/
inductive AqErr
  | tooShort
  | badRead (offset : Nat)
  | backPointerMismatch
  | badAddress
  | pdaNotFound
  | coinPdaMismatch
  | vaultPdaMismatch
  | dexPdaMismatch
  deriving DecidableEq

def aqRead (data : Bytes) (offset : Nat) : Except AqErr Bytes :=
  match aquiferReadPubkey data offset with
  | .ok b => .ok b
  | .error (.truncated o) => .error (.badRead o)

structure AquiferDexInstance where
  dexOwner : String
  dex : String
  dexBump : Nat
  instanceId : Nat
  baseCoin : String
  quoteCoin : String
  baseOracle : String
  quoteOracle : String
  mmAccount : String
  baseCoinBump : Nat
  quoteCoinBump : Nat
  dexInstanceBytes : Bytes
  dexBytes : Bytes
  raw : Bytes
  deriving DecidableEq

/-- `decode_dex_instance`: reads the stored dex identity and the dex owner,
recomputes the `["dex", dex_owner]` PDA and insists it equals the stored
bytes, then reads the remaining fields. -/
def aquiferDecodeDexInstance (raw : Bytes) : Except AqErr AquiferDexInstance := do
  if raw.length < 0xCC + 32 then throw .tooShort
  let storedDex ← aqRead raw 0x00
  let dexOwner ← aqRead raw 0x20
  let (derivedDex, dexBump) ←
    match aquiferFindProgramAddressBytes [asciiBytes "dex", dexOwner] aquiferPidBytes with
    | none => throw .pdaNotFound
    | some p => pure p
  if derivedDex ≠ storedDex then throw .dexPdaMismatch
  let baseCoin ← aqRead raw 0x4C
  let quoteCoin ← aqRead raw 0x6C
  let baseOracle ← aqRead raw 0x8C
  let quoteOracle ← aqRead raw 0xAC
  let mmAccount ← aqRead raw 0xCC
  pure
    { dexOwner := aquiferB58encode dexOwner
      dex := aquiferB58encode derivedDex
      dexBump := dexBump
      instanceId := raw.getD 0x41 0
      baseCoin := aquiferB58encode baseCoin
      quoteCoin := aquiferB58encode quoteCoin
      baseOracle := aquiferB58encode baseOracle
      quoteOracle := aquiferB58encode quoteOracle
      mmAccount := aquiferB58encode mmAccount
      baseCoinBump := raw.getD 0x42 0
      quoteCoinBump := raw.getD 0x43 0
      dexInstanceBytes := pySlice raw 0x20 0x40
      dexBytes := storedDex
      raw := raw }

structure AquiferCoin where
  mint : String
  vault : String
  oracle : String
  risk : String
  coinBump : Nat
  managedTaBump : Nat
  decimalsFlag : Nat
  raw : Bytes
  deriving DecidableEq

/-- `decode_coin_account`: checks the stored parent back-pointer
`raw[0x08:0x28]` against the supplied `dex_instance_bytes`, then recomputes
the `["coin", dex, mint]` and `["coin_managed_ta", coin]` PDAs and insists
they equal the claimed coin address and the stored vault bytes. -/
def aquiferDecodeCoinAccount (raw : Bytes) (coinAddress : String)
    (dexInstanceBytes dexBytes : Bytes) : Except AqErr AquiferCoin := do
  if raw.length < 0xB0 then throw .tooShort
  if pySlice raw 0x08 0x28 ≠ dexInstanceBytes then throw .backPointerMismatch
  let mint ← aqRead raw 0x28
  let vault ← aqRead raw 0x48
  let oracle ← aqRead raw 0x68
  let risk ← aqRead raw 0x88
  let coinAddrBytes ←
    match aquiferB58decode coinAddress with
    | none => throw .badAddress
    | some b => pure b
  let (derivedCoin, coinBump) ←
    match aquiferFindProgramAddressBytes [asciiBytes "coin", dexBytes, mint]
        aquiferPidBytes with
    | none => throw .pdaNotFound
    | some p => pure p
  if derivedCoin ≠ coinAddrBytes then throw .coinPdaMismatch
  let (vaultExpected, vaultBump) ←
    match aquiferFindProgramAddressBytes [asciiBytes "coin_managed_ta", coinAddrBytes]
        aquiferPidBytes with
    | none => throw .pdaNotFound
    | some p => pure p
  if vaultExpected ≠ vault then throw .vaultPdaMismatch
  pure
    { mint := aquiferB58encode mint
      vault := aquiferB58encode vault
      oracle := aquiferB58encode oracle
      risk := aquiferB58encode risk
      coinBump := coinBump
      managedTaBump := vaultBump
      decimalsFlag := raw.getD 0xA8 0
      raw := raw }

/-! ## saros pool parsing and the authority bump check (`saros_decode.py`) -/

def sarosProgramIdStr : String := "SSwapUtytfBdBn1b9NUGG6foMVPtcWgpRU32HToDUZr"

structure SarosPool where
  version : Nat
  isInitialized : Bool
  bumpSeed : Nat
  tokenProgram : String
  tokenA : String
  tokenB : String
  poolMint : String
  feeAccount : String
  tokenAMint : String
  tokenBMint : String
  tokenADeposit : Nat
  tokenBDeposit : Nat
  tokenAFees : Nat
  tokenBFees : Nat
  curveType : Nat
  fees : List Nat
  deriving DecidableEq

/-- `parse_pool`: fixed offsets from `POOL_LAYOUT`, using the unchecked
readers (`read_pubkey` / `read_u64`). -/
def sarosParsePool (raw : Bytes) : SarosPool :=
  { version := raw.getD 0x00 0
    isInitialized := raw.getD 0x01 0 == 1
    bumpSeed := raw.getD 0x02 0
    tokenProgram := sarosReadPubkey raw 0x08
    tokenA := sarosReadPubkey raw 0x28
    tokenB := sarosReadPubkey raw 0x48
    poolMint := sarosReadPubkey raw 0x68
    feeAccount := sarosReadPubkey raw 0x88
    tokenAMint := sarosReadPubkey raw 0xA8
    tokenBMint := sarosReadPubkey raw 0xC8
    tokenADeposit := sarosReadU64 raw 0xE8
    tokenBDeposit := sarosReadU64 raw 0xF0
    tokenAFees := sarosReadU64 raw 0xF8
    tokenBFees := sarosReadU64 raw 0x100
    curveType := raw.getD 0x130 0
    fees := (List.range 8).map fun idx => sarosReadU64 raw (0x108 + idx * 8) }

inductive SrErr
  | shortData
  | badPool
  | badB58
  | pdaNotFound
  | bumpMismatch
  deriving DecidableEq

/-- The prefix of saros `resolve_accounts` up to and including the
`bump != pool_state["bump_seed"]` integrity check: the raw-length guard is
the one `fetch_pool_state` applies before `parse_pool` ever runs, and the
recomputed `(authority, bump)` comes from the pool address as the single
seed with the saros program id. -/
def sarosResolveAuthority (raw : Bytes) (pool : String) :
    Except SrErr (String × Nat) := do
  if raw.length < 0x138 then throw .shortData
  let ps := sarosParsePool raw
  if ps.version ≠ 1 ∨ ¬ps.isInitialized then throw .badPool
  let poolBytes ←
    match sarosB58decode pool with
    | none => throw .badB58
    | some b => pure b
  let pidBytes ←
    match sarosB58decode sarosProgramIdStr with
    | none => throw .badB58
    | some b => pure b
  match sarosFindProgramAddress [poolBytes] pidBytes with
  | none => throw .pdaNotFound
  | some (authority, bump) =>
      if bump ≠ ps.bumpSeed then throw .bumpMismatch
      else pure (authority, bump)

/-! ## zerofi pair decoding and account resolution (`zerofi_decode.py`) -/

def ZEROFI_PROGRAM_ID : String := "ZERor4xhbUycZ6gb9ntrhqscUcZmAbQDjEAtCf4hbZY"
def SYSVAR_INSTRUCTIONS : String := "Sysvar1nstructions1111111111111111111111111"
def ASSOCIATED_TOKEN_PROGRAM_ID : String := "ATokenGPvbdGVxr1b2hvZbsiqW5xWH25efTNsLJA8knL"
def TOKEN_PROGRAM_V1 : String := "TokenkegQfeZyiNwAJbNbGKPFXCWuBvf9Ss623VQ5DA"
def TOKEN_PROGRAM_2022 : String := "TokenzQdSbnjHr1P1a9wYFwS6gkU1GGzLRtXju6Rjt92"

def AUTHORITY_WHITELIST : List String :=
  ["Sett1ereLzRw7neSzoUSwp6vvstBkEgAgQeP6wFcw5F",
   "ELF5Z2V7ocaSnxE8cVESrKjwyydyn3kKqwPcj57ADvKm",
   "2UUgGySTVXmKFatH7pGQo84ZrzdSYF5zw9iqrGwBMuuj"]

/-- zerofi `find_program_address` (bump countdown over the zerofi
`create_program_address`, Base58-encoding the result). -/
def zerofiFpaAux (seeds : List Bytes) (programId : Bytes) : Nat → Option (String × Nat)
  | 0 =>
      match zerofiCreateProgramAddress (seeds ++ [[0]]) programId with
      | .ok d => some (zerofiB58encode d, 0)
      | .error _ => none
  | b + 1 =>
      match zerofiCreateProgramAddress (seeds ++ [[b + 1]]) programId with
      | .ok d => some (zerofiB58encode d, b + 1)
      | .error _ => zerofiFpaAux seeds programId b

def zerofiFindProgramAddress (seeds : List Bytes) (programId : Bytes) :
    Option (String × Nat) :=
  zerofiFpaAux seeds programId 255

/-- zerofi `find_ata`: seeds `[owner, token_program, mint]` under the
associated-token program. -/
def zerofiFindAta (owner mint tokenProgram : String) : Option (String × Nat) :=
  match zerofiB58decode owner, zerofiB58decode mint,
      zerofiB58decode tokenProgram, zerofiB58decode ASSOCIATED_TOKEN_PROGRAM_ID with
  | some ob, some mb, some tb, some ab =>
      zerofiFindProgramAddress [ob, tb, mb] ab
  | _, _, _, _ => none

inductive ZfErr
  | truncated (offset : Nat)
  | indexError (offset : Nat)
  | rpc
  deriving DecidableEq

def zfRead (data : Bytes) (offset : Nat) : Except ZfErr String :=
  match zerofiReadPubkey data offset with
  | .ok s => .ok s
  | .error (.truncated o) => .error (.truncated o)

/-- Python `data[i]` on bytes (`IndexError` when out of range). -/
def pyByteAt (data : Bytes) (i : Nat) : Except ZfErr Nat :=
  if i < data.length then .ok (data.getD i 0) else .error (.indexError i)

structure ZerofiLayout where
  vaultInfoBase : String
  vaultBase : String
  vaultInfoQuote : String
  vaultQuote : String
  baseMint : String
  quoteMint : String
  swapAuthorityPda : String
  usesToken2022 : Bool
  fastFlag : Nat
  baseOnLeft : Bool
  deriving DecidableEq

/-- `decode_pair_layout`: the seven `PAIR_OFFSETS` pubkeys plus the three
flag bytes at `0x0791` / `0x079C` / `0x079F`. -/
def zerofiDecodePairLayout (data : Bytes) : Except ZfErr ZerofiLayout := do
  let vaultInfoBase ← zfRead data 0x0BA0
  let vaultBase ← zfRead data 0x0BB8
  let vaultInfoQuote ← zfRead data 0x0BC8
  let vaultQuote ← zfRead data 0x0BD8
  let baseMint ← zfRead data 0x0BE8
  let quoteMint ← zfRead data 0x0C18
  let swapAuthorityPda ← zfRead data 0x1968
  let t2022 ← pyByteAt data 0x0791
  let fastFlag ← pyByteAt data 0x079C
  let baseLeft ← pyByteAt data 0x079F
  pure
    { vaultInfoBase := vaultInfoBase
      vaultBase := vaultBase
      vaultInfoQuote := vaultInfoQuote
      vaultQuote := vaultQuote
      baseMint := baseMint
      quoteMint := quoteMint
      swapAuthorityPda := swapAuthorityPda
      usesToken2022 := t2022 &&& 1 != 0
      fastFlag := fastFlag
      baseOnLeft := baseLeft == 0 }

structure ZerofiResult where
  programId : String
  pair : String
  userAuthority : String
  accounts : List (String × String)
  mintsBase : String
  mintsQuote : String
  baseOwner : String
  baseDecimals : Nat
  quoteOwner : String
  quoteDecimals : Nat
  usesToken2022 : Bool
  fastFlag : Nat
  baseOnLeft : Bool
  authorityWarning : Bool
  deriving DecidableEq

/-- zerofi `resolve_accounts`, with the two `fetch_mint_owner` RPC results
supplied as parameters (`.error` plays the caught `RpcError`); the
`authority_warning` message string is modelled as its presence.  Note the
token-program selection: start from the base mint owner, override with
Token-2022 when the flag byte says so, and FALL BACK to the v1 token program
whenever the result is not one of the two known program ids. -/
def zerofiResolveAccounts (data : Bytes) (pair : String)
    (baseFetch quoteFetch : Except Unit (String × Nat)) (user : Option String) :
    Except ZfErr ZerofiResult := do
  let layout ← zerofiDecodePairLayout data
  let baseMint := layout.baseMint
  let quoteMint := layout.quoteMint
  let (baseOwner, baseDecimals) :=
    match baseFetch with
    | .ok v => v
    | .error _ => (TOKEN_PROGRAM_V1, 0)
  let (quoteOwner, quoteDecimals) :=
    match quoteFetch with
    | .ok v => v
    | .error _ => (baseOwner, 0)
  let tokenProgram0 := baseOwner
  let tokenProgram1 :=
    if layout.usesToken2022 then TOKEN_PROGRAM_2022 else tokenProgram0
  let tokenProgram :=
    if tokenProgram1 ≠ TOKEN_PROGRAM_V1 ∧ tokenProgram1 ≠ TOKEN_PROGRAM_2022 then
      TOKEN_PROGRAM_V1
    else tokenProgram1
  let (userBaseToken, userQuoteToken, userAuthority) ←
    match user with
    | some u =>
        match zerofiFindAta u baseMint tokenProgram with
        | none => throw .rpc
        | some (ub, _) =>
            match zerofiFindAta u quoteMint tokenProgram with
            | none => throw .rpc
            | some (uq, _) => pure (ub, uq, u)
    | none =>
        pure ("<user-base-token-account>", "<user-quote-token-account>",
          "<user-authority>")
  let authority := layout.swapAuthorityPda
  let authorityWarning := !(AUTHORITY_WHITELIST.contains authority)
  let accounts :=
    [("pair", pair),
     ("vault_info_base", layout.vaultInfoBase),
     ("vault_base", layout.vaultBase),
     ("vault_info_quote", layout.vaultInfoQuote),
     ("vault_quote", layout.vaultQuote),
     ("user_base_token", userBaseToken),
     ("user_quote_token", userQuoteToken),
     ("swap_authority", authority),
     ("token_program", tokenProgram),
     ("sysvar_instructions", SYSVAR_INSTRUCTIONS)]
  pure
    { programId := ZEROFI_PROGRAM_ID
      pair := pair
      userAuthority := userAuthority
      accounts := accounts
      mintsBase := baseMint
      mintsQuote := quoteMint
      baseOwner := baseOwner
      baseDecimals := baseDecimals
      quoteOwner := quoteOwner
      quoteDecimals := quoteDecimals
      usesToken2022 := layout.usesToken2022
      fastFlag := layout.fastFlag
      baseOnLeft := layout.baseOnLeft
      authorityWarning := authorityWarning }

/-! ## Claim theorems -/

/-- C10: for every byte string whose length is not exactly 32, every copy of
`is_on_curve` (goonfi, zerofi, obric_v2) returns `False` without raising. -/
theorem isOnCurve_wrong_length_false (b : Bytes) (h : b.length ≠ 32) :
    goonfiIsOnCurve b = false ∧ zerofiIsOnCurve b = false ∧
      obricIsOnCurve b = false := by
  refine ⟨?_, ?_, ?_⟩ <;> simp [goonfiIsOnCurve, zerofiIsOnCurve, obricIsOnCurve, h]

/-- C10 witness: the empty byte string is not 32 bytes long and every copy
rejects it. -/
theorem isOnCurve_wrong_length_false_witness :
    goonfiIsOnCurve [] = false ∧ zerofiIsOnCurve [] = false ∧
      obricIsOnCurve [] = false :=
  isOnCurve_wrong_length_false [] (by decide)

/-- C8 counterexample: the obric_v2 copy of `is_on_curve` ACCEPTS the 32-byte
encoding of `y = p + 1` (bytes `EE FF … FF 7F`), whose 255-bit `y` is `≥ p`;
the claim that every copy returns false for such inputs is therefore false. -/
theorem obric_isOnCurve_accepts_noncanonical_y :
    ED25519_P ≤ curveY (238 :: (List.replicate 30 255 ++ [127])) ∧
    (238 :: (List.replicate 30 255 ++ [127])).length = 32 ∧
    obricIsOnCurve (238 :: (List.replicate 30 255 ++ [127])) = true := by
  refine ⟨by decide, by decide, by decide⟩

/-- C8 amended: the goonfi and zerofi copies of `is_on_curve` (which carry an
explicit `y >= p` early return) report `false` for every 32-byte input whose
255-bit `y` coordinate is `≥ p`; the obric_v2 copy has no such check. -/
theorem isOnCurve_noncanonical_y_false (b : Bytes) (h : b.length = 32)
    (hy : ED25519_P ≤ curveY b) :
    goonfiIsOnCurve b = false ∧ zerofiIsOnCurve b = false := by
  have hy' : ((ED25519_P : Nat) : Int) ≤ ((curveY b : Nat) : Int) := by
    exact_mod_cast hy
  constructor <;>
    · simp only [goonfiIsOnCurve, zerofiIsOnCurve, h]
      simp [hy']

/-- C8 witness: all bytes `0xFF` gives `y = 2^255 - 1 ≥ p`, and the checked
copies reject it. -/
theorem isOnCurve_noncanonical_y_false_witness :
    goonfiIsOnCurve (List.replicate 32 255) = false ∧
      zerofiIsOnCurve (List.replicate 32 255) = false :=
  isOnCurve_noncanonical_y_false (List.replicate 32 255) (by decide) (by decide)

/-- C9 counterexample: the tessera_v copy of `b58encode` maps the all-zero
32-byte buffer to the single character `"1"`, not to thirty-two `'1'`s. -/
theorem tessera_b58encode_zero_not_canonical :
    tesseraB58encode (List.replicate 32 0) = "1" ∧
    tesseraB58encode (List.replicate 32 0) ≠ String.mk (List.replicate 32 '1') := by
  refine ⟨by decide, by decide⟩

/-- C9 amended: the zerofi (and goonfi) copies of `b58encode` map the
all-zero 32-byte buffer to exactly thirty-two `'1'` characters, and zerofi's
`read_pubkey` renders an all-zero 32-byte field as that canonical string; the
tessera_v copy instead returns a single `'1'`. -/
theorem b58encode_zero_canonical (data : Bytes) (off : Nat)
    (h : pySlice data off (off + 32) = List.replicate 32 0) :
    zerofiB58encode (List.replicate 32 0) = String.mk (List.replicate 32 '1') ∧
    goonfiB58encode (List.replicate 32 0) = String.mk (List.replicate 32 '1') ∧
    zerofiReadPubkey data off = .ok (String.mk (List.replicate 32 '1')) := by
  refine ⟨by decide, by decide, ?_⟩
  have henc : zerofiB58encode (List.replicate 32 0) =
      String.mk (List.replicate 32 '1') := by decide
  simp only [zerofiReadPubkey]
  rw [h, henc]
  simp

/-- C9 witness: reading offset 0 of an all-zero 32-byte buffer yields the
canonical system address. -/
theorem b58encode_zero_canonical_witness :
    zerofiReadPubkey (List.replicate 32 0) 0 =
      .ok (String.mk (List.replicate 32 '1')) :=
  (b58encode_zero_canonical (List.replicate 32 0) 0 (by decide)).2.2

/-- C5 counterexample: the saros field readers do not raise on truncated
reads — `read_u64` of an empty buffer silently returns `0`, and `read_pubkey`
silently encodes the shortened slice (`""` for an empty buffer, `"8"` for the
1-byte buffer `[7]`). -/
theorem saros_readers_silently_truncate :
    sarosReadU64 [] 0 = 0 ∧ sarosReadPubkey [] 0 = "" ∧
      sarosReadPubkey [7] 0 = "8" := by
  refine ⟨by decide, by decide, by decide⟩

/-- C5 amended: zerofi's `read_pubkey` raises the truncation error naming the
offset exactly when `offset + 32` exceeds the buffer and otherwise returns
the Base58 encoding of the 32 bytes at the declared offset; saros's
`read_pubkey`/`read_u64` perform no bounds check and silently return
shortened (empty/zero) values on fully truncated reads. -/
theorem field_reader_bounds (data : Bytes) (off : Nat) :
    (off + 32 ≤ data.length →
      zerofiReadPubkey data off = .ok (zerofiB58encode (pySlice data off (off + 32)))) ∧
    (data.length < off + 32 →
      zerofiReadPubkey data off = .error (.truncated off)) ∧
    (data.length ≤ off → sarosReadU64 data off = 0 ∧ sarosReadPubkey data off = "") := by
  have hlen : (pySlice data off (off + 32)).length =
      min (off + 32 - off) (data.length - off) := by
    simp [pySlice]
  refine ⟨?_, ?_, ?_⟩
  · intro hle
    have h32 : (pySlice data off (off + 32)).length = 32 := by
      rw [hlen]
      omega
    simp only [zerofiReadPubkey]
    rw [h32]
    simp
  · intro hlt
    have h32 : (pySlice data off (off + 32)).length ≠ 32 := by
      rw [hlen]
      omega
    simp only [zerofiReadPubkey]
    simp [h32]
  · intro hle
    have hnil : data.drop off = [] := List.drop_eq_nil_of_le hle
    have h8 : pySlice data off (off + 8) = [] := by simp [pySlice, hnil]
    have h32 : pySlice data off (off + 32) = [] := by simp [pySlice, hnil]
    constructor
    · simp [sarosReadU64, h8, pyFromBytesLE]
    · rw [sarosReadPubkey, h32]
      decide

/-- C5 witness: at the 1-byte buffer `[5]` and offset 1, zerofi's reader
raises the truncation error for that offset while the saros readers silently
return `0` and `""`. -/
theorem field_reader_bounds_witness :
    zerofiReadPubkey [5] 1 = .error (.truncated 1) ∧
      sarosReadU64 [5] 1 = 0 ∧ sarosReadPubkey [5] 1 = "" :=
  ⟨(field_reader_bounds [5] 1).2.1 (by decide),
   ((field_reader_bounds [5] 1).2.2 (by decide)).1,
   ((field_reader_bounds [5] 1).2.2 (by decide)).2⟩

/-- C1: the goonfi copy of `create_program_address` hashes
`seeds ‖ bump ‖ programId ‖ "ProgramDerivedAddress"` as the claim states, but
the zerofi and obric_v2 copies hash `"ProgramDerivedAddress"` FIRST
(`marker ‖ seeds ‖ bump ‖ programId`), so their candidate digests differ from
the claimed SHA-256 — here at seeds `[]`, bump `0`, all-zero program id. -/
theorem pda_digest_marker_order_bug :
    goonfiPdaDigest [[0]] (List.replicate 32 0) =
      .ok (sha256Bytes (([0] : Bytes) ++ List.replicate 32 0 ++ pdaMarker)) ∧
    zerofiPdaDigest [[0]] (List.replicate 32 0) =
      .ok (sha256Bytes (pdaMarker ++ ([0] : Bytes) ++ List.replicate 32 0)) ∧
    obricPdaDigest [[0]] (List.replicate 32 0) =
      .ok (sha256Bytes (pdaMarker ++ ([0] : Bytes) ++ List.replicate 32 0)) ∧
    zerofiPdaDigest [[0]] (List.replicate 32 0) ≠
      .ok (sha256Bytes (([0] : Bytes) ++ List.replicate 32 0 ++ pdaMarker)) ∧
    obricPdaDigest [[0]] (List.replicate 32 0) ≠
      .ok (sha256Bytes (([0] : Bytes) ++ List.replicate 32 0 ++ pdaMarker)) := by
  refine ⟨by decide, by decide, by decide, by decide, by decide⟩

/-- Helper: a seed list containing an over-long seed fails the shared
per-seed check with the seed-too-long error. -/
theorem seedsConcatChecked_of_long (seeds : List Bytes)
    (h : ∃ s ∈ seeds, 32 < s.length) :
    seedsConcatChecked seeds = .error .seedTooLong := by
  induction seeds with
  | nil => simp at h
  | cons a rest ih =>
      obtain ⟨s, hs, hlen⟩ := h
      by_cases ha : 32 < a.length
      · simp [seedsConcatChecked, ha]
      · have hsr : s ∈ rest := by
          rcases List.mem_cons.mp hs with h1 | h1
          · subst h1; exact absurd hlen ha
          · exact h1
        simp [seedsConcatChecked, ha, ih ⟨s, hsr, hlen⟩]

/-- C4 counterexample: handing goonfi's `find_program_address` a 33-byte seed
does NOT surface the seed-too-long error — every bump's
`create_program_address` failure (which is `.seedTooLong`) is swallowed by
`except ValueError: continue`, and the call ends in the exhausted-bump-space
`RuntimeError` (modelled as `none`). -/
theorem goonfi_find_long_seed_exhausts_cx :
    goonfiFindProgramAddress [List.replicate 33 0] (List.replicate 32 0) = none ∧
    goonfiCreateProgramAddress [List.replicate 33 0, [255]] (List.replicate 32 0) =
      .error .seedTooLong := by
  refine ⟨by decide, by decide⟩

/-- C4 amended: with an over-long seed, every per-bump
`create_program_address` call fails with the seed-too-long error, and
`find_program_address` — which catches those `ValueError`s — runs the bump
space dry and fails with the exhausted-bump-space error instead. -/
theorem goonfi_find_long_seed_exhausts (seeds : List Bytes) (pid : Bytes)
    (h : ∃ s ∈ seeds, 32 < s.length) :
    (∀ b : Nat,
      goonfiCreateProgramAddress (seeds ++ [[b]]) pid = .error .seedTooLong) ∧
    goonfiFindProgramAddress seeds pid = none := by
  have hcreate : ∀ b : Nat,
      goonfiCreateProgramAddress (seeds ++ [[b]]) pid = .error .seedTooLong := by
    intro b
    have hex : ∃ s ∈ seeds ++ [[b]], 32 < s.length := by
      obtain ⟨s, hs, hl⟩ := h
      exact ⟨s, List.mem_append_left _ hs, hl⟩
    simp [goonfiCreateProgramAddress, goonfiPdaDigest,
      seedsConcatChecked_of_long _ hex, Except.map]
  refine ⟨hcreate, ?_⟩
  have haux : ∀ n, goonfiFpaAux seeds pid n = none := by
    intro n
    induction n with
    | zero => simp [goonfiFpaAux, hcreate 0]
    | succ k ih => simp [goonfiFpaAux, hcreate (k + 1), ih]
  exact haux 255

/-- C4 witness: one over-long seed, concrete bump 7. -/
theorem goonfi_find_long_seed_exhausts_witness :
    goonfiCreateProgramAddress ([List.replicate 33 0] ++ [[7]])
      (List.replicate 32 0) = .error .seedTooLong ∧
    goonfiFindProgramAddress [List.replicate 33 0] (List.replicate 32 0) = none :=
  ⟨(goonfi_find_long_seed_exhausts [List.replicate 33 0] (List.replicate 32 0)
      (by decide)).1 7,
   (goonfi_find_long_seed_exhausts [List.replicate 33 0] (List.replicate 32 0)
      (by decide)).2⟩

/-- Helper: when every seed passes the length check, the shared
concatenation succeeds with the seeds joined. -/
theorem seedsConcatChecked_of_ok (seeds : List Bytes)
    (h : ∀ s ∈ seeds, s.length ≤ 32) :
    seedsConcatChecked seeds = .ok seeds.flatten := by
  induction seeds with
  | nil => simp [seedsConcatChecked]
  | cons a rest ih =>
      have ha : ¬32 < a.length := by
        have := h a (List.mem_cons_self a rest)
        omega
      have hr : ∀ s ∈ rest, s.length ≤ 32 := fun s hs =>
        h s (List.mem_cons_of_mem a hs)
      simp [seedsConcatChecked, ha, ih hr]

/-- Helper: goonfi `create_program_address` on `seeds ++ [[b]]` with short
seeds hashes `concat(seeds) ‖ [b] ‖ programId ‖ marker` and rejects on-curve
digests. -/
theorem goonfiCreate_append_bump (seeds : List Bytes) (pid : Bytes) (b : Nat)
    (h : ∀ s ∈ seeds, s.length ≤ 32) :
    goonfiCreateProgramAddress (seeds ++ [[b]]) pid =
      if goonfiIsOnCurve (sha256Bytes (seeds.flatten ++ [b] ++ pid ++ pdaMarker)) then
        .error .onCurve
      else .ok (sha256Bytes (seeds.flatten ++ [b] ++ pid ++ pdaMarker)) := by
  have h2 : ∀ s ∈ seeds ++ [[b]], s.length ≤ 32 := by
    intro s hs
    rcases List.mem_append.mp hs with h1 | h1
    · exact h s h1
    · simp at h1
      subst h1
      simp
  simp only [goonfiCreateProgramAddress, goonfiPdaDigest]
  rw [seedsConcatChecked_of_ok _ h2]
  simp [Except.map]

/-- Helper: correctness of the goonfi bump countdown from any starting bump:
a returned pair has an off-curve digest, the address is its encoding, and
every higher bump up to the start produced an on-curve digest. -/
theorem goonfiFpaAux_correct (seeds : List Bytes) (pid : Bytes)
    (h : ∀ s ∈ seeds, s.length ≤ 32) :
    ∀ start addr bump, goonfiFpaAux seeds pid start = some (addr, bump) →
      bump ≤ start ∧
      goonfiIsOnCurve (sha256Bytes (seeds.flatten ++ [bump] ++ pid ++ pdaMarker)) = false ∧
      addr = goonfiB58encode (sha256Bytes (seeds.flatten ++ [bump] ++ pid ++ pdaMarker)) ∧
      ∀ b, bump < b → b ≤ start →
        goonfiIsOnCurve (sha256Bytes (seeds.flatten ++ [b] ++ pid ++ pdaMarker)) = true := by
  intro start
  induction start with
  | zero =>
      intro addr bump hfind
      simp only [goonfiFpaAux] at hfind
      rw [goonfiCreate_append_bump seeds pid 0 h] at hfind
      by_cases hc :
          goonfiIsOnCurve (sha256Bytes (seeds.flatten ++ [0] ++ pid ++ pdaMarker)) = true
      · rw [if_pos hc] at hfind
        simp at hfind
      · rw [if_neg hc] at hfind
        rw [Bool.not_eq_true] at hc
        simp only [Option.some.injEq, Prod.mk.injEq] at hfind
        obtain ⟨h1, h2⟩ := hfind
        subst h2
        refine ⟨le_refl 0, hc, h1.symm, ?_⟩
        intro b hb1 hb2
        omega
  | succ k ih =>
      intro addr bump hfind
      simp only [goonfiFpaAux] at hfind
      rw [goonfiCreate_append_bump seeds pid (k + 1) h] at hfind
      by_cases hc :
          goonfiIsOnCurve
            (sha256Bytes (seeds.flatten ++ [k + 1] ++ pid ++ pdaMarker)) = true
      · rw [if_pos hc] at hfind
        simp only at hfind
        obtain ⟨hle, hoff, haddr, hhigher⟩ := ih addr bump hfind
        refine ⟨Nat.le_succ_of_le hle, hoff, haddr, ?_⟩
        intro b hb1 hb2
        rcases Nat.lt_or_ge b (k + 1) with hlt | hge
        · exact hhigher b hb1 (Nat.lt_succ_iff.mp hlt)
        · have : b = k + 1 := by omega
          subst this
          exact hc
      · rw [if_neg hc] at hfind
        rw [Bool.not_eq_true] at hc
        simp only [Option.some.injEq, Prod.mk.injEq] at hfind
        obtain ⟨h1, h2⟩ := hfind
        subst h2
        refine ⟨le_refl _, hc, h1.symm, ?_⟩
        intro b hb1 hb2
        omega

/-- C2: whenever goonfi's `find_program_address` returns `(addr, bump)` for
seeds each at most 32 bytes, the digest for that bump is off the curve,
`addr` is its Base58 encoding, and every bump strictly above the returned one
(searched first, in descending order) gave an on-curve digest. -/
theorem goonfi_find_program_address_correct (seeds : List Bytes) (pid : Bytes)
    (addr : String) (bump : Nat)
    (hs : ∀ s ∈ seeds, s.length ≤ 32)
    (hfind : goonfiFindProgramAddress seeds pid = some (addr, bump)) :
    bump ≤ 255 ∧
    goonfiIsOnCurve (sha256Bytes (seeds.flatten ++ [bump] ++ pid ++ pdaMarker)) = false ∧
    addr = goonfiB58encode (sha256Bytes (seeds.flatten ++ [bump] ++ pid ++ pdaMarker)) ∧
    ∀ b, bump < b → b ≤ 255 →
      goonfiIsOnCurve (sha256Bytes (seeds.flatten ++ [b] ++ pid ++ pdaMarker)) = true :=
  goonfiFpaAux_correct seeds pid hs 255 addr bump hfind

/-- C2 witness: empty seed list, all-zero program id; the search succeeds at
bump 255 and the returned address is the off-curve digest's encoding. -/
theorem goonfi_find_program_address_correct_witness :
    goonfiIsOnCurve
      (sha256Bytes ((List.flatten ([] : List Bytes)) ++ [255] ++
        List.replicate 32 0 ++ pdaMarker)) = false ∧
    "Cu7NwqCXSmsR5vgGA3Vw9uYVViPi3kQvkbKByVQ8nPY9" =
      goonfiB58encode
        (sha256Bytes ((List.flatten ([] : List Bytes)) ++ [255] ++
          List.replicate 32 0 ++ pdaMarker)) :=
  let h := goonfi_find_program_address_correct [] (List.replicate 32 0)
    "Cu7NwqCXSmsR5vgGA3Vw9uYVViPi3kQvkbKByVQ8nPY9" 255
    (by intro s hs; cases hs) (by decide)
  ⟨h.2.1, h.2.2.1⟩

/-- Helper: `Except.bind` on a success. -/
theorem except_bind_ok {ε α β : Type} (a : α) (f : α → Except ε β) :
    (Except.ok a >>= f) = f a := rfl

/-- Helper: `Except.bind` on an error short-circuits. -/
theorem except_bind_error {ε α β : Type} (e : ε) (f : α → Except ε β) :
    ((Except.error e : Except ε α) >>= f) = Except.error e := rfl


/-- Helper: zerofi `read_pubkey` succeeds when the buffer is long enough. -/
theorem zerofiReadPubkey_of_le (data : Bytes) (off : Nat)
    (h : off + 32 ≤ data.length) :
    zerofiReadPubkey data off = .ok (zerofiB58encode (pySlice data off (off + 32))) := by
  have h32 : (pySlice data off (off + 32)).length = 32 := by
    simp [pySlice]
    omega
  simp only [zerofiReadPubkey]
  rw [h32]
  simp

/-- Helper: a slice inside an all-zero buffer is all-zero. -/
theorem pySlice_replicate_zero (n off w : Nat) (h : off + w ≤ n) :
    pySlice (List.replicate n 0) off (off + w) = List.replicate w 0 := by
  rw [pySlice, List.drop_replicate, List.take_replicate]
  congr 1
  omega

/-- Helper: indexing an all-zero buffer yields zero. -/
theorem getD_replicate_zero (n i : Nat) :
    (List.replicate n 0).getD i 0 = 0 := by
  induction n generalizing i with
  | zero => simp
  | succ k ih =>
      cases i with
      | zero => simp
      | succ j => simp only [List.replicate_succ, List.getD_cons_succ]; exact ih j

/-- Helper: the Python byte access on an in-range index of an all-zero
buffer. -/
theorem pyByteAt_replicate_zero (n i : Nat) (h : i < n) :
    pyByteAt (List.replicate n 0) i = .ok 0 := by
  simp [pyByteAt, h, getD_replicate_zero]

/-- Helper: reading any in-bounds pubkey field of an all-zero buffer gives
the canonical all-`'1'` address. -/
theorem zfRead_replicate (n off : Nat) (h : off + 32 ≤ n) :
    zfRead (List.replicate n 0) off = .ok (String.mk (List.replicate 32 '1')) := by
  have h1 := zerofiReadPubkey_of_le (List.replicate n 0) off (by simpa using h)
  rw [pySlice_replicate_zero n off 32 h] at h1
  have henc : zerofiB58encode (List.replicate 32 0) =
      String.mk (List.replicate 32 '1') := by decide
  rw [henc] at h1
  simp [zfRead, h1]

/-- Helper: decoding the all-zero 6536-byte pair buffer succeeds with
canonical null addresses and cleared flags. -/
theorem zerofi_layout_replicate :
    zerofiDecodePairLayout (List.replicate 6536 0) =
      .ok ⟨String.mk (List.replicate 32 '1'), String.mk (List.replicate 32 '1'),
        String.mk (List.replicate 32 '1'), String.mk (List.replicate 32 '1'),
        String.mk (List.replicate 32 '1'), String.mk (List.replicate 32 '1'),
        String.mk (List.replicate 32 '1'), false, 0, true⟩ := by
  unfold zerofiDecodePairLayout
  rw [zfRead_replicate 6536 0x0BA0 (by norm_num), except_bind_ok,
    zfRead_replicate 6536 0x0BB8 (by norm_num), except_bind_ok,
    zfRead_replicate 6536 0x0BC8 (by norm_num), except_bind_ok,
    zfRead_replicate 6536 0x0BD8 (by norm_num), except_bind_ok,
    zfRead_replicate 6536 0x0BE8 (by norm_num), except_bind_ok,
    zfRead_replicate 6536 0x0C18 (by norm_num), except_bind_ok,
    zfRead_replicate 6536 0x1968 (by norm_num), except_bind_ok,
    pyByteAt_replicate_zero 6536 0x0791 (by norm_num), except_bind_ok,
    pyByteAt_replicate_zero 6536 0x079C (by norm_num), except_bind_ok,
    pyByteAt_replicate_zero 6536 0x079F (by norm_num), except_bind_ok]
  rfl

/-- C7 counterexample: a zerofi pair whose base-mint owner is NOT a known
token program (and whose Token-2022 flag byte is clear) does not make
`resolve_accounts` fail — the `token_program` slot of the emitted account
list is silently filled with the SPL token program v1 default. -/
theorem zerofi_resolve_fills_default_token_program :
    ((zerofiResolveAccounts (List.replicate 6536 0) "PAIR"
        (.ok ("NotATokenProgram1111111111111111111111111111", 6))
        (.ok ("NotATokenProgram1111111111111111111111111111", 6))
        none).toOption.map
      fun r => r.accounts.getD 8 ("", "")) =
    some ("token_program", TOKEN_PROGRAM_V1) := by
  unfold zerofiResolveAccounts
  rw [zerofi_layout_replicate, except_bind_ok]
  decide

/-- C7 amended: with no user supplied, whenever the pair layout decodes,
zerofi's `resolve_accounts` always succeeds and always fills the
`token_program` slot with one of the two known token-program ids — an
unclassifiable or unavailable mint owner is silently replaced by the v1
default instead of raising an unresolved-role error. -/
theorem zerofi_resolve_token_program_fallback (data : Bytes) (pair : String)
    (bf qf : Except Unit (String × Nat)) (layout : ZerofiLayout)
    (h : zerofiDecodePairLayout data = .ok layout) :
    ∃ r, zerofiResolveAccounts data pair bf qf none = .ok r ∧
      (r.accounts.getD 8 ("", "") = ("token_program", TOKEN_PROGRAM_V1) ∨
       r.accounts.getD 8 ("", "") = ("token_program", TOKEN_PROGRAM_2022)) := by
  unfold zerofiResolveAccounts
  rw [h, except_bind_ok]
  refine ⟨_, rfl, ?_⟩
  simp only [List.getD]
  by_cases h2022 : layout.usesToken2022
  · simp [h2022, TOKEN_PROGRAM_V1, TOKEN_PROGRAM_2022]
  · simp only [h2022]
    by_cases hv1 : (match bf with | .ok v => v | .error _ => (TOKEN_PROGRAM_V1, 0)).1 =
        TOKEN_PROGRAM_V1
    · simp [hv1]
    · by_cases hv2 : (match bf with | .ok v => v | .error _ => (TOKEN_PROGRAM_V1, 0)).1 =
          TOKEN_PROGRAM_2022
      · simp [hv2]
      · simp [hv1, hv2]

/-- C7 witness: concrete all-zero pair data with an unknown base-mint owner
and a failed quote-mint fetch. -/
theorem zerofi_resolve_token_program_fallback_witness :
    ∃ r, zerofiResolveAccounts (List.replicate 6536 0) "PAIR"
        (.ok ("NotATokenProgram1111111111111111111111111111", 6))
        (.error ()) none = .ok r ∧
      (r.accounts.getD 8 ("", "") = ("token_program", TOKEN_PROGRAM_V1) ∨
       r.accounts.getD 8 ("", "") = ("token_program", TOKEN_PROGRAM_2022)) :=
  zerofi_resolve_token_program_fallback _ "PAIR" _ _ _ zerofi_layout_replicate

/-- Helper: `Except.bind` after `pure`. -/
theorem except_pure_bind {ε α β : Type} (a : α) (f : α → Except ε β) :
    ((pure a : Except ε α) >>= f) = f a := rfl

/-- Helper: `Except.bind` after `throw` short-circuits. -/
theorem except_throw_bind {ε α β : Type} (e : ε) (f : α → Except ε β) :
    ((throw e : Except ε α) >>= f) = Except.error e := rfl

/-- Helper: aquifer `read_pubkey` succeeds on a long-enough buffer and
returns exactly the 32 bytes at the offset. -/
theorem aqRead_ok (data : Bytes) (off : Nat) (h : off + 32 ≤ data.length) :
    aqRead data off = .ok (pySlice data off (off + 32)) := by
  have h32 : (pySlice data off (off + 32)).length = 32 := by
    simp [pySlice]
    omega
  simp only [aqRead, aquiferReadPubkey]
  rw [h32]
  simp

/-- Helper: a successful aquifer `read_pubkey` returns the slice at the
offset. -/
theorem aqRead_ok_inv (data : Bytes) (off : Nat) (b : Bytes)
    (h : aqRead data off = .ok b) : b = pySlice data off (off + 32) := by
  by_cases hc : (pySlice data off (off + 32)).length ≠ 32
  · simp only [aqRead, aquiferReadPubkey, if_pos hc] at h
    exact absurd h (by simp)
  · simp only [aqRead, aquiferReadPubkey, if_neg hc] at h
    simp at h
    exact h.symm

/-- Helper: the coin decoder fails with the back-pointer mismatch error as
soon as the stored parent bytes disagree. -/
theorem aquiferDecodeCoin_backptr_mismatch (raw : Bytes) (cA : String)
    (dib db : Bytes) (hlen : 0xB0 ≤ raw.length)
    (hne : pySlice raw 0x08 0x28 ≠ dib) :
    aquiferDecodeCoinAccount raw cA dib db = .error .backPointerMismatch := by
  unfold aquiferDecodeCoinAccount
  rw [if_neg (by omega : ¬raw.length < 0xB0)]
  simp only [except_pure_bind, except_throw_bind, except_bind_ok, except_bind_error]
  rw [if_pos hne]

/-- Helper: when every integrity link agrees (and the derivations land), the
coin decoder returns the fully decoded record. -/
theorem aquiferDecodeCoin_ok (raw : Bytes) (cA : String) (dib db cb : Bytes)
    (bc bt : Nat)
    (hlen : 0xB0 ≤ raw.length)
    (hbp : pySlice raw 0x08 0x28 = dib)
    (hdec : aquiferB58decode cA = some cb)
    (hcoin : aquiferFindProgramAddressBytes
      [asciiBytes "coin", db, pySlice raw 0x28 0x48] aquiferPidBytes = some (cb, bc))
    (hta : aquiferFindProgramAddressBytes
      [asciiBytes "coin_managed_ta", cb] aquiferPidBytes =
        some (pySlice raw 0x48 0x68, bt)) :
    aquiferDecodeCoinAccount raw cA dib db =
      .ok ⟨aquiferB58encode (pySlice raw 0x28 0x48),
           aquiferB58encode (pySlice raw 0x48 0x68),
           aquiferB58encode (pySlice raw 0x68 0x88),
           aquiferB58encode (pySlice raw 0x88 0xA8),
           bc, bt, raw.getD 0xA8 0, raw⟩ := by
  have h28 : aqRead raw 0x28 = .ok (pySlice raw 0x28 0x48) := by
    have h := aqRead_ok raw 0x28 (by omega)
    norm_num at h
    exact h
  have h48 : aqRead raw 0x48 = .ok (pySlice raw 0x48 0x68) := by
    have h := aqRead_ok raw 0x48 (by omega)
    norm_num at h
    exact h
  have h68 : aqRead raw 0x68 = .ok (pySlice raw 0x68 0x88) := by
    have h := aqRead_ok raw 0x68 (by omega)
    norm_num at h
    exact h
  have h88 : aqRead raw 0x88 = .ok (pySlice raw 0x88 0xA8) := by
    have h := aqRead_ok raw 0x88 (by omega)
    norm_num at h
    exact h
  unfold aquiferDecodeCoinAccount
  rw [if_neg (by omega : ¬raw.length < 0xB0)]
  rw [if_neg (by simp [hbp] : ¬pySlice raw 0x08 0x28 ≠ dib)]
  simp [h28, h48, h68, h88, hdec, hcoin, hta, except_bind_ok, except_pure_bind,
    except_throw_bind, except_bind_error]
  rfl

/-- Helper: a successful coin decode implies every stored/recomputed
integrity link agreed (back-pointer, coin PDA, managed-ta PDA). -/
theorem aquiferDecodeCoin_ok_inv (raw : Bytes) (cA : String) (dib db : Bytes)
    (rec : AquiferCoin)
    (h : aquiferDecodeCoinAccount raw cA dib db = .ok rec) :
    pySlice raw 0x08 0x28 = dib ∧
    ∃ cb, aquiferB58decode cA = some cb ∧
      aquiferFindProgramAddressBytes [asciiBytes "coin", db, pySlice raw 0x28 0x48]
        aquiferPidBytes = some (cb, rec.coinBump) ∧
      aquiferFindProgramAddressBytes [asciiBytes "coin_managed_ta", cb]
        aquiferPidBytes = some (pySlice raw 0x48 0x68, rec.managedTaBump) := by
  unfold aquiferDecodeCoinAccount at h
  by_cases hl : raw.length < 0xB0
  · rw [if_pos hl] at h
    exact Except.noConfusion h
  · rw [if_neg hl] at h
    by_cases hbp : pySlice raw 0x08 0x28 ≠ dib
    · rw [if_pos hbp] at h
      exact Except.noConfusion h
    · rw [if_neg hbp] at h
      have h28 : aqRead raw 0x28 = .ok (pySlice raw 0x28 0x48) := by
        have hx := aqRead_ok raw 0x28 (by omega)
        norm_num at hx
        exact hx
      have h48 : aqRead raw 0x48 = .ok (pySlice raw 0x48 0x68) := by
        have hx := aqRead_ok raw 0x48 (by omega)
        norm_num at hx
        exact hx
      have h68 : aqRead raw 0x68 = .ok (pySlice raw 0x68 0x88) := by
        have hx := aqRead_ok raw 0x68 (by omega)
        norm_num at hx
        exact hx
      have h88 : aqRead raw 0x88 = .ok (pySlice raw 0x88 0xA8) := by
        have hx := aqRead_ok raw 0x88 (by omega)
        norm_num at hx
        exact hx
      rw [h28, except_bind_ok, h48, except_bind_ok, h68, except_bind_ok, h88,
        except_bind_ok] at h
      cases hdec : aquiferB58decode cA with
      | none =>
          rw [hdec] at h
          simp [except_throw_bind] at h
      | some cb =>
          rw [hdec] at h
          simp only [except_pure_bind] at h
          cases hcoin : aquiferFindProgramAddressBytes
              [asciiBytes "coin", db, pySlice raw 0x28 0x48] aquiferPidBytes with
          | none =>
              rw [hcoin] at h
              simp [except_throw_bind] at h
          | some p =>
              obtain ⟨dc, bc⟩ := p
              rw [hcoin] at h
              simp only [except_pure_bind] at h
              by_cases hdc : dc ≠ cb
              · rw [if_pos hdc] at h
                exact Except.noConfusion h
              · rw [if_neg hdc] at h
                cases hta : aquiferFindProgramAddressBytes
                    [asciiBytes "coin_managed_ta", cb] aquiferPidBytes with
                | none =>
                    rw [hta] at h
                    simp [except_throw_bind] at h
                | some q =>
                    obtain ⟨ve, bt⟩ := q
                    rw [hta] at h
                    simp only [except_pure_bind] at h
                    by_cases hve : ve ≠ pySlice raw 0x48 0x68
                    · rw [if_pos hve] at h
                      exact Except.noConfusion h
                    · rw [if_neg hve] at h
                      have hrec : (⟨aquiferB58encode (pySlice raw 0x28 0x48),
                          aquiferB58encode (pySlice raw 0x48 0x68),
                          aquiferB58encode (pySlice raw 0x68 0x88),
                          aquiferB58encode (pySlice raw 0x88 0xA8),
                          bc, bt, raw.getD 0xA8 0, raw⟩ : AquiferCoin) = rec :=
                        Except.ok.inj h
                      subst hrec
                      refine ⟨not_ne_iff.mp hbp, cb, rfl, ?_, ?_⟩
                      · rw [not_ne_iff.mp hdc]
                      · rw [hta, not_ne_iff.mp hve]

/-- Helper: a successful dex-instance decode implies the stored dex identity
bytes equal the recomputed `["dex", dex_owner]` PDA. -/
theorem aquiferDecodeDex_ok_inv (raw : Bytes) (rec : AquiferDexInstance)
    (h : aquiferDecodeDexInstance raw = .ok rec) :
    aquiferFindProgramAddressBytes [asciiBytes "dex", pySlice raw 0x20 0x40]
      aquiferPidBytes = some (pySlice raw 0x00 0x20, rec.dexBump) := by
  unfold aquiferDecodeDexInstance at h
  by_cases hl : raw.length < 0xCC + 32
  · rw [if_pos hl] at h
    exact Except.noConfusion h
  · rw [if_neg hl] at h
    have h00 : aqRead raw 0x00 = .ok (pySlice raw 0x00 0x20) := by
      have hx := aqRead_ok raw 0x00 (by omega)
      norm_num at hx
      exact hx
    have h20 : aqRead raw 0x20 = .ok (pySlice raw 0x20 0x40) := by
      have hx := aqRead_ok raw 0x20 (by omega)
      norm_num at hx
      exact hx
    rw [h00, except_bind_ok, h20, except_bind_ok] at h
    cases hfind : aquiferFindProgramAddressBytes
        [asciiBytes "dex", pySlice raw 0x20 0x40] aquiferPidBytes with
    | none =>
        rw [hfind] at h
        simp [except_throw_bind] at h
    | some p =>
        obtain ⟨dd, dbp⟩ := p
        rw [hfind] at h
        simp only [except_pure_bind] at h
        by_cases hdd : dd ≠ pySlice raw 0x00 0x20
        · rw [if_pos hdd] at h
          exact Except.noConfusion h
        · rw [if_neg hdd] at h
          have h4C : aqRead raw 0x4C = .ok (pySlice raw 0x4C 0x6C) := by
            have hx := aqRead_ok raw 0x4C (by omega)
            norm_num at hx
            exact hx
          have h6C : aqRead raw 0x6C = .ok (pySlice raw 0x6C 0x8C) := by
            have hx := aqRead_ok raw 0x6C (by omega)
            norm_num at hx
            exact hx
          have h8C : aqRead raw 0x8C = .ok (pySlice raw 0x8C 0xAC) := by
            have hx := aqRead_ok raw 0x8C (by omega)
            norm_num at hx
            exact hx
          have hAC : aqRead raw 0xAC = .ok (pySlice raw 0xAC 0xCC) := by
            have hx := aqRead_ok raw 0xAC (by omega)
            norm_num at hx
            exact hx
          have hCC : aqRead raw 0xCC = .ok (pySlice raw 0xCC 0xEC) := by
            have hx := aqRead_ok raw 0xCC (by omega)
            norm_num at hx
            exact hx
          rw [h4C, except_bind_ok, h6C, except_bind_ok, h8C, except_bind_ok,
            hAC, except_bind_ok, hCC, except_bind_ok] at h
          have hrec := Except.ok.inj h
          subst hrec
          rw [not_ne_iff.mp hdd]

/-- Helper: when the recomputed dex PDA disagrees with the stored dex
identity bytes, the dex-instance decoder fails with the dex PDA mismatch
error. -/
theorem aquiferDecodeDex_mismatch (raw : Bytes) (hlen : 0xCC + 32 ≤ raw.length)
    (dd : Bytes) (dbp : Nat)
    (hfind : aquiferFindProgramAddressBytes
      [asciiBytes "dex", pySlice raw 0x20 0x40] aquiferPidBytes = some (dd, dbp))
    (hne : dd ≠ pySlice raw 0x00 0x20) :
    aquiferDecodeDexInstance raw = .error .dexPdaMismatch := by
  have h00 : aqRead raw 0x00 = .ok (pySlice raw 0x00 0x20) := by
    have hx := aqRead_ok raw 0x00 (by omega)
    norm_num at hx
    exact hx
  have h20 : aqRead raw 0x20 = .ok (pySlice raw 0x20 0x40) := by
    have hx := aqRead_ok raw 0x20 (by omega)
    norm_num at hx
    exact hx
  unfold aquiferDecodeDexInstance
  rw [if_neg (by omega : ¬raw.length < 0xCC + 32)]
  rw [h00, except_bind_ok, h20, except_bind_ok, hfind]
  simp only [except_pure_bind]
  rw [if_pos hne]
  rfl

/-- Helper: a successful saros authority resolution implies the recomputed
bump equals the pool's stored bump byte. -/
theorem sarosResolveAuthority_ok_inv (sraw : Bytes) (pool a : String) (bump : Nat)
    (h : sarosResolveAuthority sraw pool = .ok (a, bump)) :
    bump = (sarosParsePool sraw).bumpSeed := by
  simp only [sarosResolveAuthority] at h
  by_cases hl : sraw.length < 0x138
  · rw [if_pos hl] at h
    exact Except.noConfusion h
  · rw [if_neg hl] at h
    by_cases hv : (sarosParsePool sraw).version ≠ 1 ∨
        ¬(sarosParsePool sraw).isInitialized = true
    · rw [if_pos hv] at h
      exact Except.noConfusion h
    · rw [if_neg hv] at h
      cases hpb : sarosB58decode pool with
      | none =>
          rw [hpb] at h
          simp [except_throw_bind] at h
      | some pb =>
          rw [hpb] at h
          simp only [except_pure_bind] at h
          cases hpid : sarosB58decode sarosProgramIdStr with
          | none =>
              rw [hpid] at h
              simp [except_throw_bind] at h
          | some pidb =>
              rw [hpid] at h
              simp only [except_pure_bind] at h
              cases hfind : sarosFindProgramAddress [pb] pidb with
              | none =>
                  rw [hfind] at h
                  simp at h
              | some q =>
                  obtain ⟨a2, b2⟩ := q
                  rw [hfind] at h
                  simp only [except_pure_bind] at h
                  by_cases hbm : b2 ≠ (sarosParsePool sraw).bumpSeed
                  · rw [if_pos hbm] at h
                    exact Except.noConfusion h
                  · rw [if_neg hbm] at h
                    have hpair : (a2, b2) = (a, bump) := Except.ok.inj h
                    have hb : b2 = bump := congrArg Prod.snd hpair
                    rw [← hb]
                    exact not_ne_iff.mp hbm

/-- C6: the integrity links are enforced at decode time.  For the aquifer
coin account: a disagreeing stored parent back-pointer raises immediately and
yields no record (A); a successful decode implies the back-pointer, the
recomputed `["coin", dex, mint]` PDA against the claimed address, and the
recomputed `["coin_managed_ta", coin]` PDA against the stored vault bytes all
agreed (B); and when every link agrees the typed record is returned (C).
For the aquifer dex instance: success implies the stored dex bytes equal the
recomputed `["dex", dex_owner]` PDA (D), and a recomputed PDA differing from
the stored bytes raises (E).  For saros: a successful authority resolution
implies the recomputed bump equals the stored bump byte — so a disagreement
never produces a result (F). -/
theorem integrity_links_validated (raw rawD sraw : Bytes)
    (coinAddress pool : String) (dexInstanceBytes dexBytes : Bytes) :
    (0xB0 ≤ raw.length → pySlice raw 0x08 0x28 ≠ dexInstanceBytes →
      aquiferDecodeCoinAccount raw coinAddress dexInstanceBytes dexBytes =
        .error .backPointerMismatch) ∧
    (∀ rec, aquiferDecodeCoinAccount raw coinAddress dexInstanceBytes dexBytes =
        .ok rec →
      pySlice raw 0x08 0x28 = dexInstanceBytes ∧
      ∃ cb, aquiferB58decode coinAddress = some cb ∧
        aquiferFindProgramAddressBytes
          [asciiBytes "coin", dexBytes, pySlice raw 0x28 0x48] aquiferPidBytes =
          some (cb, rec.coinBump) ∧
        aquiferFindProgramAddressBytes [asciiBytes "coin_managed_ta", cb]
          aquiferPidBytes = some (pySlice raw 0x48 0x68, rec.managedTaBump)) ∧
    (0xB0 ≤ raw.length → pySlice raw 0x08 0x28 = dexInstanceBytes →
      ∀ cb bc bt, aquiferB58decode coinAddress = some cb →
        aquiferFindProgramAddressBytes
          [asciiBytes "coin", dexBytes, pySlice raw 0x28 0x48] aquiferPidBytes =
          some (cb, bc) →
        aquiferFindProgramAddressBytes [asciiBytes "coin_managed_ta", cb]
          aquiferPidBytes = some (pySlice raw 0x48 0x68, bt) →
        aquiferDecodeCoinAccount raw coinAddress dexInstanceBytes dexBytes =
          .ok ⟨aquiferB58encode (pySlice raw 0x28 0x48),
               aquiferB58encode (pySlice raw 0x48 0x68),
               aquiferB58encode (pySlice raw 0x68 0x88),
               aquiferB58encode (pySlice raw 0x88 0xA8),
               bc, bt, raw.getD 0xA8 0, raw⟩) ∧
    (∀ rec, aquiferDecodeDexInstance rawD = .ok rec →
      aquiferFindProgramAddressBytes [asciiBytes "dex", pySlice rawD 0x20 0x40]
        aquiferPidBytes = some (pySlice rawD 0x00 0x20, rec.dexBump)) ∧
    (0xCC + 32 ≤ rawD.length →
      ∀ dd dbp, aquiferFindProgramAddressBytes
          [asciiBytes "dex", pySlice rawD 0x20 0x40] aquiferPidBytes =
          some (dd, dbp) →
        dd ≠ pySlice rawD 0x00 0x20 →
        aquiferDecodeDexInstance rawD = .error .dexPdaMismatch) ∧
    (∀ a bump, sarosResolveAuthority sraw pool = .ok (a, bump) →
      bump = (sarosParsePool sraw).bumpSeed) :=
  ⟨fun hlen hne =>
      aquiferDecodeCoin_backptr_mismatch raw coinAddress dexInstanceBytes dexBytes
        hlen hne,
   fun rec hrec =>
      aquiferDecodeCoin_ok_inv raw coinAddress dexInstanceBytes dexBytes rec hrec,
   fun hlen hbp cb bc bt hdec hcoin hta =>
      aquiferDecodeCoin_ok raw coinAddress dexInstanceBytes dexBytes cb bc bt
        hlen hbp hdec hcoin hta,
   fun rec hrec => aquiferDecodeDex_ok_inv rawD rec hrec,
   fun hlen dd dbp hfind hne => aquiferDecodeDex_mismatch rawD hlen dd dbp hfind hne,
   fun a bump h => sarosResolveAuthority_ok_inv sraw pool a bump h⟩

/-- C6 witness: a 176-byte all-zero coin account whose claimed parent bytes
are all ones is rejected with the back-pointer mismatch error. -/
theorem integrity_links_validated_witness :
    aquiferDecodeCoinAccount (List.replicate 176 0) "X" (List.replicate 32 1) [] =
      .error .backPointerMismatch :=
  (integrity_links_validated (List.replicate 176 0) [] [] "X" "P"
      (List.replicate 32 1) []).1 (by decide) (by decide)

/-- Helper: expanding zero gives no digits, for any fuel. -/
theorem b58digitsAux_zero (f : Nat) : b58digitsAux f 0 = [] := by
  cases f <;> simp [b58digitsAux]

/-- Helper: the digit expansion does not depend on the fuel once the fuel
dominates the number. -/
theorem b58digitsAux_fuel (f g n : Nat) (hf : n ≤ f) (hg : n ≤ g) :
    b58digitsAux f n = b58digitsAux g n := by
  induction f generalizing g n with
  | zero =>
      have : n = 0 := by omega
      subst this
      rw [b58digitsAux_zero, b58digitsAux_zero]
  | succ k ih =>
      by_cases hn : n = 0
      · subst hn
        rw [b58digitsAux_zero, b58digitsAux_zero]
      · cases g with
        | zero => omega
        | succ g2 =>
            have hdiv : n / 58 < n := Nat.div_lt_self (by omega) (by omega)
            simp only [b58digitsAux]
            rw [if_neg hn, if_neg hn, ih g2 (n / 58) (by omega) (by omega)]

/-- Helper: every expanded digit is below 58. -/
theorem b58digitsAux_lt (f : Nat) : ∀ n d, d ∈ b58digitsAux f n → d < 58 := by
  induction f with
  | zero => intro n d hd; simp [b58digitsAux] at hd
  | succ k ih =>
      intro n d hd
      by_cases hn : n = 0
      · subst hn; simp [b58digitsAux] at hd
      · simp only [b58digitsAux] at hd
        rw [if_neg hn] at hd
        rcases List.mem_append.mp hd with h1 | h1
        · exact ih (n / 58) d h1
        · simp at h1
          subst h1
          exact Nat.mod_lt _ (by omega)

/-- Helper: folding the digits back with `acc * 58 + d` recovers the
number. -/
theorem b58digitsAux_foldl (f : Nat) : ∀ n, n ≤ f →
    (b58digitsAux f n).foldl (fun a d => a * 58 + d) 0 = n := by
  induction f with
  | zero =>
      intro n hn
      have : n = 0 := by omega
      subst this
      simp [b58digitsAux]
  | succ k ih =>
      intro n hn
      by_cases hn0 : n = 0
      · subst hn0; simp [b58digitsAux]
      · have hdiv : n / 58 < n := Nat.div_lt_self (by omega) (by omega)
        simp only [b58digitsAux]
        rw [if_neg hn0, List.foldl_append]
        rw [ih (n / 58) (by omega)]
        simp [Nat.div_add_mod]
        omega

/-- Helper: a positive number's digit expansion starts with a nonzero
digit. -/
theorem b58digitsAux_head (f : Nat) : ∀ n, 0 < n → n ≤ f →
    ∃ d t, b58digitsAux f n = d :: t ∧ 0 < d ∧ d < 58 := by
  induction f with
  | zero => intro n h1 h2; omega
  | succ k ih =>
      intro n h1 h2
      have hn0 : ¬n = 0 := by omega
      simp only [b58digitsAux]
      rw [if_neg hn0]
      by_cases hq : n / 58 = 0
      · rw [hq, b58digitsAux_zero]
        have hlt : n < 58 := (Nat.div_eq_zero_iff (by omega)).mp hq
        exact ⟨n % 58, [], by simp, by rw [Nat.mod_eq_of_lt hlt]; omega,
          Nat.mod_lt _ (by omega)⟩
      · have hdiv : n / 58 < n := Nat.div_lt_self (by omega) (by omega)
        obtain ⟨d, t, heq, hd0, hd58⟩ := ih (n / 58) (by omega) (by omega)
        exact ⟨d, t ++ [n % 58], by rw [heq]; simp, hd0, hd58⟩

/-- Helper: `byteLenAux` of zero is zero, for any fuel. -/
theorem byteLenAux_zero (f : Nat) : byteLenAux f 0 = 0 := by
  cases f <;> simp [byteLenAux]

/-- Helper: the base-256 digit count does not depend on the fuel once the
fuel dominates the number. -/
theorem byteLenAux_fuel (f g n : Nat) (hf : n ≤ f) (hg : n ≤ g) :
    byteLenAux f n = byteLenAux g n := by
  induction f generalizing g n with
  | zero =>
      have : n = 0 := by omega
      subst this
      rw [byteLenAux_zero, byteLenAux_zero]
  | succ k ih =>
      by_cases hn : n = 0
      · subst hn
        rw [byteLenAux_zero, byteLenAux_zero]
      · cases g with
        | zero => omega
        | succ g2 =>
            have hdiv : n / 256 < n := Nat.div_lt_self (by omega) (by omega)
            simp only [byteLenAux]
            rw [if_neg hn, if_neg hn, ih g2 (n / 256) (by omega) (by omega)]

/-- Helper: the digit count of a number in `[256 ^ w, 256 ^ (w + 1))` is
`w + 1`. -/
theorem pyByteLen_of_bounds (w : Nat) : ∀ n, 256 ^ w ≤ n → n < 256 ^ (w + 1) →
    pyByteLen n = w + 1 := by
  induction w with
  | zero =>
      intro n h1 h2
      simp at h1 h2
      have hn : ¬n = 0 := by omega
      unfold pyByteLen
      cases hn2 : n with
      | zero => omega
      | succ m =>
          simp only [byteLenAux, if_neg (by omega : ¬m + 1 = 0)]
          rw [Nat.div_eq_of_lt (by omega), byteLenAux_zero]
  | succ w ih =>
      intro n h1 h2
      have hn : ¬n = 0 := by
        have := Nat.pos_pow_of_pos (w + 1) (show 0 < 256 by omega)
        omega
      have hq1 : 256 ^ w ≤ n / 256 := by
        rw [Nat.le_div_iff_mul_le (by omega)]
        calc 256 ^ w * 256 = 256 ^ (w + 1) := by ring
        _ ≤ n := h1
      have hq2 : n / 256 < 256 ^ (w + 1) := by
        rw [Nat.div_lt_iff_lt_mul (by omega)]
        calc n < 256 ^ (w + 2) := h2
        _ = 256 ^ (w + 1) * 256 := by ring
      have hdiv : n / 256 < n := Nat.div_lt_self (by omega) (by omega)
      unfold pyByteLen
      cases hn2 : n with
      | zero => omega
      | succ m =>
          simp only [byteLenAux, if_neg (by omega : ¬m + 1 = 0)]
          have : byteLenAux m ((m + 1) / 256) = pyByteLen ((m + 1) / 256) := by
            apply byteLenAux_fuel
            · omega
            · omega
          rw [this]
          rw [hn2] at hq1 hq2
          have := ih ((m + 1) / 256) hq1 hq2
          omega

/-- Helper: looking an alphabet character back up recovers its digit. -/
theorem b58CharIndex_alph : ∀ d, d < 58 →
    b58CharIndex (B58_ALPHABET.getD d '?') = some d := by decide

/-- Helper: no alphabet character other than index 0 is `'1'`. -/
theorem alph_ne_one : ∀ d, d < 58 → 0 < d → B58_ALPHABET.getD d '?' ≠ '1' := by
  decide

/-- Helper: decoding the character rendering of a digit list folds the
digits back. -/
theorem b58NumAux_map_alph (ds : List Nat) : ∀ acc, (∀ d ∈ ds, d < 58) →
    b58NumAux (ds.map fun d => B58_ALPHABET.getD d '?') acc =
      some (ds.foldl (fun a d => a * 58 + d) acc) := by
  induction ds with
  | nil => intro acc h; simp [b58NumAux]
  | cons d rest ih =>
      intro acc h
      have hd : d < 58 := h d (List.mem_cons_self d rest)
      simp only [List.map_cons, b58NumAux, b58CharIndex_alph d hd, List.foldl_cons]
      exact ih (acc * 58 + d) fun x hx => h x (List.mem_cons_of_mem d hx)

/-- Helper: leading `'1'` characters leave the accumulated value at zero. -/
theorem b58NumAux_ones (k : Nat) (l : List Char) :
    b58NumAux (List.replicate k '1' ++ l) 0 = b58NumAux l 0 := by
  induction k with
  | zero => simp
  | succ m ih =>
      have h1 : b58CharIndex '1' = some 0 := by decide
      simpa [List.replicate_succ, b58NumAux, h1] using ih

/-- Helper: `takeWhile` walks through a satisfying replicate prefix. -/
theorem takeWhile_replicate_append (p : α → Bool) (a : α) (hp : p a = true)
    (k : Nat) (l : List α) :
    (List.replicate k a ++ l).takeWhile p = List.replicate k a ++ l.takeWhile p := by
  induction k with
  | zero => simp
  | succ m ih => simp [List.replicate_succ, List.takeWhile_cons, hp, ih]

/-- Helper: the fixed-width expansion always has the declared width. -/
theorem toBEAux_length : ∀ w n, (toBEAux w n).length = w := by
  intro w
  induction w with
  | zero => intro n; simp [toBEAux]
  | succ k ih => intro n; simp [toBEAux, ih]

/-- Helper: the fixed-width expansion of zero is all zero bytes. -/
theorem toBEAux_zero : ∀ w, toBEAux w 0 = List.replicate w 0 := by
  intro w
  induction w with
  | zero => simp [toBEAux]
  | succ k ih =>
      show toBEAux k (0 / 256) ++ [0 % 256] = List.replicate (k + 1) 0
      rw [Nat.zero_div, ih, List.replicate_add]
      simp

/-- Helper: `int.from_bytes` over an appended byte. -/
theorem pyFromBytesBE_append (l : Bytes) (x : Nat) :
    pyFromBytesBE (l ++ [x]) = pyFromBytesBE l * 256 + x := by
  simp [pyFromBytesBE, List.foldl_append]

/-- Helper: `to_bytes` at the exact length inverts `from_bytes`. -/
theorem toBEAux_fromBE (l : Bytes) (h : ∀ x ∈ l, x < 256) :
    toBEAux l.length (pyFromBytesBE l) = l := by
  induction l using List.reverseRecOn with
  | nil => simp [pyFromBytesBE, toBEAux]
  | append_singleton l x ih =>
      have hx : x < 256 := h x (by simp)
      have hdiv : (pyFromBytesBE l * 256 + x) / 256 = pyFromBytesBE l := by omega
      have hmod : (pyFromBytesBE l * 256 + x) % 256 = x := by omega
      rw [List.length_append, List.length_singleton, pyFromBytesBE_append]
      show toBEAux l.length ((pyFromBytesBE l * 256 + x) / 256) ++
          [(pyFromBytesBE l * 256 + x) % 256] = l ++ [x]
      rw [hdiv, hmod, ih fun y hy => h y (List.mem_append_left _ hy)]

/-- Helper: `from_bytes` is bounded by the byte count. -/
theorem fromBE_lt (l : Bytes) (h : ∀ x ∈ l, x < 256) :
    pyFromBytesBE l < 256 ^ l.length := by
  induction l using List.reverseRecOn with
  | nil => simp [pyFromBytesBE]
  | append_singleton l x ih =>
      have hx : x < 256 := h x (by simp)
      have hl := ih fun y hy => h y (List.mem_append_left _ hy)
      rw [pyFromBytesBE_append, List.length_append, List.length_singleton,
        pow_succ]
      nlinarith

/-- Helper: the big-endian fold with a nonzero accumulator. -/
theorem fromBE_foldl_acc : ∀ (t : Bytes) (acc : Nat),
    List.foldl (fun a b => a * 256 + b) acc t =
      acc * 256 ^ t.length + List.foldl (fun a b => a * 256 + b) 0 t := by
  intro t
  induction t with
  | nil => intro acc; simp
  | cons x rest ih =>
      intro acc
      simp only [List.foldl_cons, List.length_cons]
      rw [ih (acc * 256 + x), ih (0 * 256 + x)]
      ring

/-- Helper: `from_bytes` of a cons. -/
theorem fromBE_cons (h : Nat) (t : Bytes) :
    pyFromBytesBE (h :: t) = h * 256 ^ t.length + pyFromBytesBE t := by
  show List.foldl (fun a b => a * 256 + b) (0 * 256 + h) t = _
  rw [show (0 : Nat) * 256 + h = h by ring, fromBE_foldl_acc t h]
  rfl

/-- Helper: leading zero bytes do not change the numeric value. -/
theorem fromBE_replicate_zero_append (k : Nat) (l : Bytes) :
    pyFromBytesBE (List.replicate k 0 ++ l) = pyFromBytesBE l := by
  induction k with
  | zero => simp
  | succ m ih =>
      simpa [List.replicate_succ, pyFromBytesBE] using ih

/-- Helper: `dropWhile (== 0)` never starts with a zero byte. -/
theorem dropWhile_zero_head (l : Bytes) : ∀ h t,
    l.dropWhile (· == 0) = h :: t → h ≠ 0 := by
  induction l with
  | nil => intro h t hht; simp at hht
  | cons x rest ih =>
      intro h t hht
      by_cases hx : x = 0
      · subst hx
        rw [List.dropWhile_cons_of_pos (by simp)] at hht
        exact ih h t hht
      · rw [List.dropWhile_cons_of_neg (by simpa using hx)] at hht
        obtain ⟨h1, _⟩ := List.cons.inj hht
        subst h1
        exact hx

/-- Helper: the leading-zero prefix of a byte string really is a replicate
of zeros. -/
theorem takeWhile_zero_eq_replicate (l : Bytes) :
    l.takeWhile (· == 0) = List.replicate (leadingZeroBytes l) 0 := by
  have h : ∀ x ∈ l.takeWhile (· == 0), x = 0 := by
    intro x hx
    simpa using List.mem_takeWhile_imp hx
  exact List.eq_replicate_of_mem h

/-- Helper: the character list of a literally built string. -/
theorem string_mk_data (l : List Char) : (String.mk l).data = l := rfl

/-- C3 counterexample: the goonfi copy of `b58decode` does not invert
`b58encode` on buffers with leading zero bytes — the all-zero 32-byte buffer
round-trips to SIXTY-FOUR zero bytes, because the decoder prepends one pad
byte per leading `'1'` on top of the full 32-byte conversion. -/
theorem goonfi_b58_roundtrip_cx :
    goonfiB58decode (goonfiB58encode (List.replicate 32 0)) =
      some (List.replicate 64 0) ∧
    goonfiB58decode (goonfiB58encode (List.replicate 32 0)) ≠
      some (List.replicate 32 0) := by
  refine ⟨by decide, by decide⟩

/-- C3 amended: for every 32-byte buffer (bytes < 256), the zerofi copy of
`b58decode` inverts `b58encode` exactly; the goonfi copy instead returns the
buffer with its leading-zero prefix DUPLICATED (`leading zeros ++ b`), so it
round-trips precisely the buffers whose first byte is nonzero. -/
theorem b58_roundtrip (b : Bytes) (hlen : b.length = 32)
    (hb : ∀ x ∈ b, x < 256) :
    zerofiB58decode (goonfiB58encode b) = some b ∧
    goonfiB58decode (goonfiB58encode b) =
      some (List.replicate (leadingZeroBytes b) 0 ++ b) := by
  have hsplit : List.replicate (leadingZeroBytes b) 0 ++ b.dropWhile (· == 0) = b := by
    rw [← takeWhile_zero_eq_replicate]
    exact List.takeWhile_append_dropWhile _ _
  by_cases hnum : pyFromBytesBE b = 0
  · have hlnil : b.dropWhile (· == 0) = [] := by
      cases hl2 : b.dropWhile (· == 0) with
      | nil => rfl
      | cons h t =>
          exfalso
          have hne : h ≠ 0 := dropWhile_zero_head b h t hl2
          have heq : pyFromBytesBE b = pyFromBytesBE (h :: t) := by
            conv_lhs => rw [← hsplit, hl2]
            rw [fromBE_replicate_zero_append]
          rw [fromBE_cons] at heq
          have hp : 0 < 256 ^ t.length := pow_pos (by omega) _
          have := Nat.mul_pos (Nat.pos_of_ne_zero hne) hp
          omega
    have hb32 : b = List.replicate (leadingZeroBytes b) 0 := by
      conv_lhs => rw [← hsplit, hlnil]
      simp
    have hkk : leadingZeroBytes b = 32 := by
      have hlen2 := congrArg List.length hb32
      rw [hlen] at hlen2
      simpa using hlen2.symm
    rw [hkk] at hb32
    rw [hb32]
    constructor <;> decide
  · obtain ⟨h, t, hl2⟩ : ∃ h t, b.dropWhile (· == 0) = h :: t := by
      cases hl2 : b.dropWhile (· == 0) with
      | nil =>
          exfalso
          apply hnum
          conv_lhs => rw [← hsplit, hl2]
          rw [fromBE_replicate_zero_append]
          rfl
      | cons h t => exact ⟨h, t, rfl⟩
    have hne : h ≠ 0 := dropWhile_zero_head b h t hl2
    have hmem_l : ∀ x ∈ b.dropWhile (· == 0), x < 256 := fun x hx =>
      hb x ((List.dropWhile_sublist _).subset hx)
    have hmem_ht : ∀ x ∈ h :: t, x < 256 := fun x hx =>
      hmem_l x (by rw [hl2]; exact hx)
    have hnum_l : pyFromBytesBE b = pyFromBytesBE (b.dropWhile (· == 0)) := by
      conv_lhs => rw [← hsplit]
      rw [fromBE_replicate_zero_append]
    have henc : goonfiB58encode b = String.mk
        (List.replicate (leadingZeroBytes b) '1' ++
          natToB58Chars (pyFromBytesBE b)) := by
      simp [goonfiB58encode, hnum]
    have hpos : 0 < pyFromBytesBE b := Nat.pos_of_ne_zero hnum
    obtain ⟨d0, dt, hdig, hd0pos, hd0lt⟩ :=
      b58digitsAux_head (pyFromBytesBE b) (pyFromBytesBE b) hpos le_rfl
    have hdlt : ∀ d ∈ b58digitsAux (pyFromBytesBE b) (pyFromBytesBE b), d < 58 :=
      fun d hd => b58digitsAux_lt _ _ d hd
    have hones : leadingOnes (List.replicate (leadingZeroBytes b) '1' ++
        natToB58Chars (pyFromBytesBE b)) = leadingZeroBytes b := by
      unfold leadingOnes
      rw [takeWhile_replicate_append _ '1' (by decide), natToB58Chars, hdig,
        List.map_cons, List.takeWhile_cons_of_neg]
      · simp
      · simpa using alph_ne_one d0 hd0lt hd0pos
    have hnumaux : b58NumAux (List.replicate (leadingZeroBytes b) '1' ++
        natToB58Chars (pyFromBytesBE b)) 0 = some (pyFromBytesBE b) := by
      rw [b58NumAux_ones, natToB58Chars, b58NumAux_map_alph _ 0 hdlt,
        b58digitsAux_foldl _ _ le_rfl]
    have hlow : 256 ^ t.length ≤ pyFromBytesBE (h :: t) := by
      rw [fromBE_cons]
      calc 256 ^ t.length = 1 * 256 ^ t.length := by ring
      _ ≤ h * 256 ^ t.length :=
          Nat.mul_le_mul_right _ (Nat.one_le_iff_ne_zero.mpr hne)
      _ ≤ h * 256 ^ t.length + pyFromBytesBE t := Nat.le_add_right _ _
    have hup : pyFromBytesBE (h :: t) < 256 ^ (t.length + 1) := by
      have := fromBE_lt (h :: t) hmem_ht
      simpa using this
    have hminbytes : pyMinBytesBE (pyFromBytesBE b) = b.dropWhile (· == 0) := by
      rw [pyMinBytesBE, if_neg hnum, hnum_l, hl2,
        pyByteLen_of_bounds t.length _ hlow hup]
      have := toBEAux_fromBE (h :: t) hmem_ht
      simpa using this
    rw [henc]
    constructor
    · simp only [zerofiB58decode, string_mk_data, hnumaux]
      rw [hones, hminbytes, hsplit, pyRJustZero, hlen]
      simp
    · have hlt : pyFromBytesBE b < 256 ^ 32 := by
        have := fromBE_lt b hb
        rwa [hlen] at this
      have htb : toBEAux 32 (pyFromBytesBE b) = b := by
        have := toBEAux_fromBE b hb
        rwa [hlen] at this
      simp only [goonfiB58decode, string_mk_data, hnumaux, pyToBytesBEOpt,
        if_pos hlt]
      rw [htb, hones, hlen]
      simp

/-- C3 witness: a 32-byte buffer with 31 leading zero bytes — zerofi's
decoder returns it unchanged; goonfi's decoder prepends the 31-zero prefix
again. -/
theorem b58_roundtrip_witness :
    zerofiB58decode (goonfiB58encode (List.replicate 31 0 ++ [7])) =
      some (List.replicate 31 0 ++ [7]) ∧
    goonfiB58decode (goonfiB58encode (List.replicate 31 0 ++ [7])) =
      some (List.replicate (leadingZeroBytes (List.replicate 31 0 ++ [7])) 0 ++
        (List.replicate 31 0 ++ [7])) :=
  b58_roundtrip (List.replicate 31 0 ++ [7]) (by decide) (by decide)
